import Mathlib

/-!
Verification of the guardian-node multi-party protocol engine.

This file gives a shallow embedding, in Lean 4, of the parts of the
guardian-node source that the specification's claims are about:

* `src/backend/node/src/security.rs` — the CVE-2023-33241 small-prime
  guard on Paillier moduli;
* `src/backend/node/src/recovery/commands.rs` — the Paillier-key update
  commands and the guard calls they make;
* `src/backend/node/src/keygen/ecdsa/client.rs` — the guard call in the
  keygen commit round;
* `src/backend/node/src/recovery/target_role.rs` — the recovery target's
  package validation;
* `src/backend/node/src/recovery/calculator.rs` — the helper's linear
  secret sharing and the recovered-share validation;
* `src/backend/node/src/eject.rs` — key reconstruction by Lagrange
  interpolation;
* `src/backend/node/src/communication/ecdsa.rs` — the round message
  collector;
* `src/backend/node/src/signing/ecdsa/session.rs` — the phase-5 control
  flow and the signing-request timestamp gate;
* `src/backend/node/src/recovery/recovery_session.rs` — the
  recovery-index-zero guard.

Machine integers (`usize`, `u16`) are modelled as `Nat`; Paillier moduli
(`BigInt`) as `Nat`; curve scalars and points as elements of an abstract
field / module.  Fallible Rust code (`anyhow::Result`) is modelled with
`Except String`; Rust panics (out-of-bounds indexing, `unwrap`) are made
explicit with a dedicated `RunResult` type.
-/

/-! ### Small-prime guard (`security.rs`) -/

/-- `MAX_PRIME` from `security.rs`: the sieve bound `65536 = 2^16`. -/
def MAX_PRIME : Nat := 65536

/-- The compile-time table `PRIMES` of `security.rs` : all primes below
`2^16`, produced there by a sieve of Eratosthenes.  Embedded by its
defining property: the primes below `MAX_PRIME` in increasing order. -/
def PRIMES : List Nat := (List.range MAX_PRIME).filter (fun p => decide (Nat.Prime p))

/-- The error message of `check_for_small_primes`. -/
def cveMsg : String :=
  "Check for small prime factors hasn`t passed! - Security issue: CVE-2023-33241"

/-- `check_for_small_primes` from `security.rs`: error as soon as some
prime in the table divides the modulus `n` of the encryption key,
otherwise `Ok(())`. -/
def check_for_small_primes (n : Nat) : Except String Unit :=
  if PRIMES.any (fun p => n % p == 0) then .error cveMsg else .ok ()

lemma mem_PRIMES {p : Nat} : p ∈ PRIMES ↔ Nat.Prime p ∧ p < MAX_PRIME := by
  constructor
  · intro h
    rcases List.mem_filter.mp h with ⟨hr, hp⟩
    exact ⟨of_decide_eq_true hp, List.mem_range.mp hr⟩
  · intro ⟨hp, hr⟩
    exact List.mem_filter.mpr ⟨List.mem_range.mpr hr, decide_eq_true hp⟩

attribute [irreducible] PRIMES

lemma check_for_small_primes_error {p n : Nat} (hp : Nat.Prime p)
    (hlt : p < MAX_PRIME) (hdvd : p ∣ n) :
    check_for_small_primes n = .error cveMsg := by
  unfold check_for_small_primes
  rw [if_pos]
  obtain ⟨c, rfl⟩ := hdvd
  exact List.any_eq_true.mpr ⟨p, mem_PRIMES.mpr ⟨hp, hlt⟩,
    beq_iff_eq.mpr (Nat.mul_mod_right p c)⟩

lemma check_for_small_primes_ok {n : Nat}
    (h : ∀ p, Nat.Prime p → p < MAX_PRIME → ¬ p ∣ n) :
    check_for_small_primes n = .ok () := by
  unfold check_for_small_primes
  rw [if_neg]
  intro hany
  rcases List.any_eq_true.mp hany with ⟨p, hmem, hmod⟩
  rcases mem_PRIMES.mp hmem with ⟨hp, hlt⟩
  exact h p hp hlt (Nat.dvd_of_mod_eq_zero (beq_iff_eq.mp hmod))

/-! ### Guard call sites (`recovery/commands.rs`, `keygen/ecdsa/client.rs`,
`recovery/mod.rs`) -/

/-- The guard loop of the keygen commit round (`client.rs` lines 110-113):
`for commit in &commit_vec { check_for_small_primes(&commit.e)?; }`.
Each commitment's Paillier encryption key is represented by its modulus. -/
def keygen_commit_round_check : List Nat → Except String Unit
  | [] => .ok ()
  | ek :: rest =>
    match check_for_small_primes ek with
    | .error e => .error e
    | .ok () => keygen_commit_round_check rest

/-- `replace_elem_in_vec` from `recovery/mod.rs`: replace the element at
`index`, or error when the index is out of range. -/
def replace_elem_in_vec (old_vec : List Nat) (index : Nat) (new_value : Nat) :
    Except String (List Nat) :=
  if index < old_vec.length then .ok (old_vec.set index new_value)
  else .error ("Unable to access element at index " ++ toString index ++
    " to replace its value")

/-- `update_paillier_keys` from `recovery/mod.rs`: pad the stored vector with
default (zero-modulus) keys up to `keyshare_index` when it is shorter, then
replace position `keyshare_index - 1`. -/
def update_paillier_keys (stored : List Nat) (keyshare_index : Nat) (new_ek : Nat) :
    Except String (List Nat) :=
  let eks := if keyshare_index ≥ stored.length
    then stored ++ List.replicate (keyshare_index - stored.length) 0
    else stored
  replace_elem_in_vec eks (keyshare_index - 1) new_ek

/-- `UpdatePaillierKeysCommand::execute_message` (`recovery/commands.rs` lines
75-87): the guard runs on every incoming key before the keyshare is loaded or
mutated; on success the stored Paillier vector becomes `new_eks`. -/
def UpdatePaillierKeysCommand_execute (new_eks : List Nat) (stored : List Nat) :
    Except String (List Nat) := do
  keygen_commit_round_check new_eks
  pure new_eks

/-- `UpdateSinglePaillierKeyCommand::execute_message` (`recovery/commands.rs`
lines 89-99): the guard runs on the single incoming key before the keyshare is
loaded or mutated. -/
def UpdateSinglePaillierKeyCommand_execute (new_ek : Nat) (index : Nat)
    (stored : List Nat) : Except String (List Nat) := do
  check_for_small_primes new_ek
  update_paillier_keys stored index new_ek

lemma check_for_small_primes_error_msg {n : Nat} {msg : String}
    (h : check_for_small_primes n = .error msg) : msg = cveMsg := by
  unfold check_for_small_primes at h
  split at h
  · exact ((Except.error.injEq _ _).mp h).symm
  · cases h

lemma keygen_commit_round_check_error_of_mem {n : Nat} {eks : List Nat}
    (hmem : n ∈ eks) (herr : check_for_small_primes n = .error cveMsg) :
    keygen_commit_round_check eks = .error cveMsg := by
  induction eks with
  | nil => cases hmem
  | cons e rest ih =>
    rcases List.mem_cons.mp hmem with heq | htl
    · subst heq
      unfold keygen_commit_round_check
      rw [herr]
    · unfold keygen_commit_round_check
      cases hc : check_for_small_primes e with
      | error msg =>
        rw [check_for_small_primes_error_msg hc]
      | ok u => cases u; exact ih htl

lemma keygen_commit_round_check_nil : keygen_commit_round_check [] = .ok () := rfl

lemma keygen_commit_round_check_cons_ok {n : Nat} {rest : List Nat}
    (h : check_for_small_primes n = .ok ()) :
    keygen_commit_round_check (n :: rest) = keygen_commit_round_check rest := by
  conv_lhs => unfold keygen_commit_round_check
  rw [h]

lemma keygen_commit_round_check_cons_error {n : Nat} {rest : List Nat} {msg : String}
    (h : check_for_small_primes n = .error msg) :
    keygen_commit_round_check (n :: rest) = .error msg := by
  unfold keygen_commit_round_check
  rw [h]

lemma UpdatePaillierKeysCommand_execute_ok {new_eks stored : List Nat}
    (h : keygen_commit_round_check new_eks = .ok ()) :
    UpdatePaillierKeysCommand_execute new_eks stored = .ok new_eks := by
  unfold UpdatePaillierKeysCommand_execute
  rw [h]
  rfl

lemma UpdatePaillierKeysCommand_execute_error {new_eks stored : List Nat} {msg : String}
    (h : keygen_commit_round_check new_eks = .error msg) :
    UpdatePaillierKeysCommand_execute new_eks stored = .error msg := by
  unfold UpdatePaillierKeysCommand_execute
  rw [h]
  rfl

lemma UpdateSinglePaillierKeyCommand_execute_ok {new_ek index : Nat} {stored : List Nat}
    (h : check_for_small_primes new_ek = .ok ()) :
    UpdateSinglePaillierKeyCommand_execute new_ek index stored =
      update_paillier_keys stored index new_ek := by
  unfold UpdateSinglePaillierKeyCommand_execute
  rw [h]
  rfl

lemma UpdateSinglePaillierKeyCommand_execute_error {new_ek index : Nat}
    {stored : List Nat} {msg : String}
    (h : check_for_small_primes new_ek = .error msg) :
    UpdateSinglePaillierKeyCommand_execute new_ek index stored = .error msg := by
  unfold UpdateSinglePaillierKeyCommand_execute
  rw [h]
  rfl

lemma no_small_prime_factor_65537_65539 :
    ∀ p, Nat.Prime p → p < MAX_PRIME → ¬ p ∣ 65537 * 65539 := by
  intro p hp hlt hdvd
  have h65537 : Nat.Prime 65537 := by norm_num
  have h65539 : Nat.Prime 65539 := by norm_num
  have hM : MAX_PRIME = 65536 := rfl
  rw [hM] at hlt
  rcases (Nat.Prime.dvd_mul hp).mp hdvd with h | h
  · have := (Nat.prime_dvd_prime_iff_eq hp h65537).mp h
    omega
  · have := (Nat.prime_dvd_prime_iff_eq hp h65539).mp h
    omega

/-- C1, counterexample.  A Paillier modulus `65537 * 65539` — the product of
the prime `p = 65537` with another prime — passes the small-prime guard in
all three paths, because the guard only tests primes strictly below
`2^16 = 65536` and `65537 = 2^16 + 1` is not among them.  So a key with
`p = 65537` and `q` a prime not below `2^16` is *not* rejected. -/
theorem C1_counterexample_65537_key_accepted :
    check_for_small_primes (65537 * 65539) = .ok () ∧
    keygen_commit_round_check [65537 * 65539] = .ok () ∧
    UpdatePaillierKeysCommand_execute [65537 * 65539] [1] = .ok [65537 * 65539] ∧
    UpdateSinglePaillierKeyCommand_execute (65537 * 65539) 1 [1] =
      update_paillier_keys [1] 1 (65537 * 65539) := by
  have hok : check_for_small_primes (65537 * 65539) = .ok () :=
    check_for_small_primes_ok no_small_prime_factor_65537_65539
  have hlist : keygen_commit_round_check [65537 * 65539] = .ok () := by
    rw [keygen_commit_round_check_cons_ok hok, keygen_commit_round_check_nil]
  exact ⟨hok, hlist, UpdatePaillierKeysCommand_execute_ok hlist,
    UpdateSinglePaillierKeyCommand_execute_ok hok⟩

/-- C1, amended.  For every Paillier encryption key whose modulus has a prime
factor strictly below `2^16` (in particular a modulus `p * q` with `p` a prime
below `65536`), the key is rejected by the small-prime guard before any use in
each of the three paths: the keygen commit round, the recovery-install
single-key update, and the bulk Paillier-key update.  (The claim's `p = 65537`
is not below `2^16`; such moduli pass the guard, see the counterexample.) -/
theorem C1_small_prime_guard_rejects (p n : Nat) (hp : Nat.Prime p)
    (hlt : p < 65536) (hdvd : p ∣ n) :
    check_for_small_primes n = .error cveMsg ∧
    (∀ eks, n ∈ eks → keygen_commit_round_check eks = .error cveMsg) ∧
    (∀ new_eks stored, n ∈ new_eks →
      UpdatePaillierKeysCommand_execute new_eks stored = .error cveMsg) ∧
    (∀ idx stored,
      UpdateSinglePaillierKeyCommand_execute n idx stored = .error cveMsg) := by
  have herr : check_for_small_primes n = .error cveMsg :=
    check_for_small_primes_error hp hlt hdvd
  refine ⟨herr, ?_, ?_, ?_⟩
  · intro eks hmem
    exact keygen_commit_round_check_error_of_mem hmem herr
  · intro new_eks stored hmem
    exact UpdatePaillierKeysCommand_execute_error
      (keygen_commit_round_check_error_of_mem hmem herr)
  · intro idx stored
    exact UpdateSinglePaillierKeyCommand_execute_error herr

/-- Witness for C1: the guard applied to the modulus `6 = 2 * 3` with prime
factor `3 < 2^16` errors in all three paths. -/
theorem C1_small_prime_guard_rejects_witness :
    Nat.Prime 3 ∧ 3 < 65536 ∧ 3 ∣ 6 ∧
    check_for_small_primes 6 = .error cveMsg ∧
    keygen_commit_round_check [6] = .error cveMsg ∧
    UpdatePaillierKeysCommand_execute [6] [1] = .error cveMsg ∧
    UpdateSinglePaillierKeyCommand_execute 6 1 [1] = .error cveMsg := by
  have h := C1_small_prime_guard_rejects 3 6 (by norm_num) (by norm_num) (by norm_num)
  exact ⟨by norm_num, by norm_num, by norm_num, h.1,
    h.2.1 [6] (by simp), h.2.2.1 [6] [1] (by simp), h.2.2.2 1 [1]⟩

/-! ### Recovery target validation (`recovery/target_role.rs`,
`recovery/calculator.rs`)

Curve scalars are modelled by a commutative ring `S`, curve points by an
additive commutative group `P` that is an `S`-module; the curve generator is a
parameter `g : P` and the map `x ↦ x • g` models `Point::generator() * x`.
Rust panics (indexing an empty slice, `unwrap`) are modelled by the dedicated
constructor `RunResult.panic`. -/

/-- Result of running a Rust function that may return `Ok`, return `Err`, or
panic. -/
inductive RunResult (α : Type _) where
  | ok (a : α)
  | err (msg : String)
  | panic
  deriving DecidableEq

/-- `VerifiableSS` from `curv`: the public Feldman commitment vector.  (The
Shamir parameters play no role in the embedded functions.) -/
structure VSS (P : Type) where
  commitments : List P
  deriving DecidableEq

/-- `validate_all_matching_items` from `target_role.rs`: `&items[0]` panics on
an empty slice; otherwise all items must equal the first. -/
def validate_all_matching_items {T : Type} [DecidableEq T] (items : List T)
    (description : String) : RunResult T :=
  match items with
  | [] => .panic
  | first :: _ =>
    if items.all (fun item => item = first) then .ok first
    else .err (description ++ " provided do not match, key recovery cannot be validated")

/-- `VerifiableSS::get_point_commitment` from `curv` (external library):
Horner evaluation of the commitment polynomial at `index`; `none` models the
panic on an empty commitment vector. -/
def get_point_commitment (S : Type) {P : Type} [CommRing S] [AddCommGroup P]
    [Module S P] (vss : VSS P) (index : Nat) : Option P :=
  match vss.commitments.reverse with
  | [] => none
  | h :: t => some (t.foldl (fun acc x => x + (index : S) • acc) h)

/-- The fold of `validate_recovered_share` over the tail of the VSS slice:
accumulate the point commitments at `index`. -/
def point_commitment_fold (S : Type) {P : Type} [CommRing S] [AddCommGroup P]
    [Module S P] : List (VSS P) → P → Nat → Option P
  | [], acc, _ => some acc
  | v :: t, acc, index =>
    match get_point_commitment S v index with
    | none => none
    | some c => point_commitment_fold S t (acc + c) index

/-- The head-plus-fold sum of point commitments computed by
`validate_recovered_share`: `none` models the panics (`unwrap` on an empty
VSS slice, or inside `get_point_commitment`). -/
def vss_commitment_sum (S : Type) {P : Type} [CommRing S] [AddCommGroup P]
    [Module S P] (vss : List (VSS P)) (index : Nat) : Option P :=
  match vss with
  | [] => none
  | v :: tail =>
    match get_point_commitment S v index with
    | none => none
    | some h => point_commitment_fold S tail h index

/-- `RecoveryCalculator::validate_recovered_share` from `calculator.rs` lines
97-116: compare `g * secret` with the summed point commitments at `index`.
Both `get_point_commitment` calls receive `index as u16` (lines 106 and 109),
so the commitment polynomial is evaluated at `index` reduced modulo `2^16`. -/
def validate_recovered_share {S P : Type} [CommRing S] [AddCommGroup P]
    [Module S P] [DecidableEq P] (g : P) (secret : S) (vss : List (VSS P))
    (index : Nat) : RunResult Unit :=
  match vss_commitment_sum S vss (index % 65536) with
  | none => .panic
  | some total =>
    if secret • g = total then .ok ()
    else .err "Recovered key share did not pass validation"

/-- The `try_fold` of `calculate_y_sum_from_vss_vec` over the tail of the VSS
vector: add each scheme's first commitment. -/
def y_sum_fold {P : Type} [AddCommGroup P] : List (VSS P) → P → Except String P
  | [], acc => .ok acc
  | v :: t, acc =>
    match v.commitments.head? with
    | none => .error "VSS commitments empty"
    | some h => y_sum_fold t (acc + h)

/-- `RecoveryCalculator::calculate_y_sum_from_vss_vec` from `calculator.rs`
lines 118-137: the joint public key is the sum of each scheme's first
commitment; errors (not panics) on empty input. -/
def calculate_y_sum_from_vss_vec {P : Type} [AddCommGroup P] (vss_vec : List (VSS P)) :
    Except String P :=
  match vss_vec with
  | [] => .error "VSS empty"
  | v :: rest =>
    match v.commitments.head? with
    | none => .error "VSS commitments empty"
    | some h => y_sum_fold rest h

/-- `ShareRecoveryInfo` from `recovery/mod.rs`.  (The source field
`partial_secret` is called `part_secret` here.) -/
structure ShareRecoveryInfo (S P : Type) where
  part_secret : S
  vss_vec : List (VSS P)
  deriving DecidableEq

/-- `recover_and_validate_secret` from `target_role.rs` lines 390-413. -/
def recover_and_validate_secret {S P : Type} [CommRing S] [AddCommGroup P]
    [Module S P] [DecidableEq P] [DecidableEq S] (g : P) (recovery_index : Nat)
    (share_infos : List (ShareRecoveryInfo S P)) :
    RunResult (S × List (VSS P) × P) :=
  let vss_vec := share_infos.map (fun x => x.vss_vec)
  let secrets := share_infos.map (fun x => x.part_secret)
  match validate_all_matching_items vss_vec "VSS scheme vecs" with
  | .panic => .panic
  | .err m => .err m
  | .ok vss =>
    match calculate_y_sum_from_vss_vec vss with
    | .error m => .err m
    | .ok y_sum =>
      let secret := secrets.sum
      match validate_recovered_share g secret vss recovery_index with
      | .panic => .panic
      | .err m => .err m
      | .ok _ => .ok (secret, vss, y_sum)

/-- `RecoveryValidationResult` from `recovery/mod.rs` (the Paillier encryption
key is represented by its modulus). -/
inductive RecoveryValidationResult where
  | validated
  | validatedWithEks (ek : Nat)
  | error (msg : String)
  deriving DecidableEq

/-- The message prefix added by `process_recovery_packages` when wrapping a
validation error. -/
def valFailMsg (m : String) : String :=
  "The provided recovery packages could not be validated: " ++ m

/-- `EdDSARecoveryPackage` from `recovery/mod.rs`. -/
structure EdDSARecoveryPackage (S P : Type) where
  share_recovery_info : ShareRecoveryInfo S P
  deriving DecidableEq

/-- `ECDSARecoveryPackage` from `recovery/mod.rs`.  `DLogStatement`s and
Paillier encryption keys are opaque wire data here; a `DLogStatement` is
represented by a `Nat` identifier and a Paillier key by its modulus. -/
structure ECDSARecoveryPackage (S P : Type) where
  share_recovery_info : ShareRecoveryInfo S P
  h1_h2_N_tilde_vec : List Nat
  paillier_key_vec : List Nat
  public_key_vec : List P
  deriving DecidableEq

/-- The keyshare written by the EdDSA target role (`storage`'s `EDDSA`). -/
structure EDDSAKeyshare (S P : Type) where
  threshold : Nat
  party_index : Nat
  x_i : S
  y_sum : P
  vss_scheme_vec : List (VSS P)
  deriving DecidableEq

/-- The keyshare written by the ECDSA target role (`storage`'s `ECDSA`). -/
structure ECDSAKeyshare (S P : Type) where
  threshold : Nat
  y_sum : P
  x_i : S
  party_index : Nat
  public_key_vec : List P
  vss_scheme_vec : List (VSS P)
  paillier_key_vec : List Nat
  h1_h2_N_tilde_vec : List Nat
  paillier_dk : Nat
  deriving DecidableEq

/-- The ECDSA-specific items validated by the target
(`ECDSASpecificValidatedRecoveryItems` in `target_role.rs`). -/
structure ECDSASpecificValidatedRecoveryItems (P : Type) where
  public_key_vec : List P
  new_paillier_key_vec : List Nat
  h1_h2_N_tilde_vec : List Nat
  paillier_ek : Nat
  paillier_dk : Nat
  deriving DecidableEq

/-- `validate_ecdsa_specific_recovery_package_items` from `target_role.rs`
lines 338-379.  The fresh Paillier keypair drawn by
`create_new_paillier_keys_and_update_vec` is passed in as `fresh_ek` /
`fresh_dk`.  Note `h1_h2_N_tilde_vecs[0]` panics on an empty package list,
and no small-prime check is performed on the received Paillier keys. -/
def validate_ecdsa_specific_recovery_package_items {S P : Type} [DecidableEq S]
    [DecidableEq P] (recovery_packages : List (ECDSARecoveryPackage S P))
    (recovery_index : Nat) (fresh_ek fresh_dk : Nat) :
    RunResult (ECDSASpecificValidatedRecoveryItems P) :=
  let public_key_vecs := recovery_packages.map (fun x => x.public_key_vec)
  let paillier_key_vecs := recovery_packages.map (fun x => x.paillier_key_vec)
  let h1_h2_N_tilde_vecs := recovery_packages.map (fun x => x.h1_h2_N_tilde_vec)
  match h1_h2_N_tilde_vecs.head? with
  | none => .panic
  | some h1_h2_N_tilde_vec =>
    match validate_all_matching_items public_key_vecs "Public key vec" with
    | .panic => .panic
    | .err m => .err m
    | .ok public_key_vec =>
      match validate_all_matching_items paillier_key_vecs "Paillier encryption keys" with
      | .panic => .panic
      | .err m => .err m
      | .ok paillier_key_vec =>
        match replace_elem_in_vec paillier_key_vec (recovery_index - 1) fresh_ek with
        | .error m => .err m
        | .ok new_paillier_key_vec =>
          .ok { public_key_vec := public_key_vec,
                new_paillier_key_vec := new_paillier_key_vec,
                h1_h2_N_tilde_vec := h1_h2_N_tilde_vec,
                paillier_ek := fresh_ek,
                paillier_dk := fresh_dk }

/-- `EdDSABehaviourTargetRole::process_recovery_packages` from
`target_role.rs` lines 118-163.  The pair returned is the broadcast
validation result together with the keyshare written to the store
(`none` when nothing is persisted); `KeyshareSaver::save_key` is modelled
as succeeding. -/
def EdDSA_process_recovery_packages {S P : Type} [CommRing S] [AddCommGroup P]
    [Module S P] [DecidableEq P] [DecidableEq S] (g : P)
    (recovery_index threshold : Nat) (packages : List (EdDSARecoveryPackage S P)) :
    RunResult (RecoveryValidationResult × Option (EDDSAKeyshare S P)) :=
  let share_info := packages.map (fun x => x.share_recovery_info)
  match recover_and_validate_secret g recovery_index share_info with
  | .panic => .panic
  | .err m => .ok (.error (valFailMsg m), none)
  | .ok (recovered_secret, vss, y_sum) =>
    let new_keyshare : EDDSAKeyshare S P :=
      { threshold := threshold, party_index := recovery_index,
        x_i := recovered_secret, y_sum := y_sum, vss_scheme_vec := vss }
    .ok (.validated, some new_keyshare)

/-- `ECDSABehaviourTargetRole::process_recovery_packages` from
`target_role.rs` lines 178-253, with the fresh Paillier keypair as
parameters and `save_key` modelled as succeeding. -/
def ECDSA_process_recovery_packages {S P : Type} [CommRing S] [AddCommGroup P]
    [Module S P] [DecidableEq P] [DecidableEq S] (g : P)
    (recovery_index threshold : Nat) (fresh_ek fresh_dk : Nat)
    (packages : List (ECDSARecoveryPackage S P)) :
    RunResult (RecoveryValidationResult × Option (ECDSAKeyshare S P)) :=
  let share_info := packages.map (fun x => x.share_recovery_info)
  match recover_and_validate_secret g recovery_index share_info with
  | .panic => .panic
  | .err m => .ok (.error (valFailMsg m), none)
  | .ok (x_i, vss_scheme_vec, y_sum) =>
    match validate_ecdsa_specific_recovery_package_items packages recovery_index
        fresh_ek fresh_dk with
    | .panic => .panic
    | .err m => .ok (.error (valFailMsg m), none)
    | .ok validated_recovery_items =>
      let keyshare : ECDSAKeyshare S P :=
        { threshold := threshold, y_sum := y_sum, x_i := x_i,
          party_index := recovery_index,
          public_key_vec := validated_recovery_items.public_key_vec,
          vss_scheme_vec := vss_scheme_vec,
          paillier_key_vec := validated_recovery_items.new_paillier_key_vec,
          h1_h2_N_tilde_vec := validated_recovery_items.h1_h2_N_tilde_vec,
          paillier_dk := validated_recovery_items.paillier_dk }
      .ok (.validatedWithEks validated_recovery_items.paillier_ek, some keyshare)

lemma validate_all_matching_items_cons {T : Type} [DecidableEq T] (a : T)
    (l : List T) (d : String) :
    validate_all_matching_items (a :: l) d =
      if (a :: l).all (fun item => item = a) then .ok a
      else .err (d ++ " provided do not match, key recovery cannot be validated") := rfl

lemma validate_all_matching_items_ok {T : Type} [DecidableEq T] {items : List T}
    {d : String} {v : T} (h : validate_all_matching_items items d = .ok v) :
    items ≠ [] ∧ ∀ x ∈ items, x = v := by
  cases items with
  | nil => cases h
  | cons a l =>
    rw [validate_all_matching_items_cons] at h
    by_cases hall : (a :: l).all (fun item => item = a)
    · rw [if_pos hall] at h
      cases h
      refine ⟨by simp, ?_⟩
      intro x hx
      exact of_decide_eq_true (List.all_eq_true.mp hall x hx)
    · rw [if_neg hall] at h
      cases h

lemma validate_all_matching_items_err_of_ne {T : Type} [DecidableEq T]
    {a : T} {l : List T} (d : String) (hx : ∃ x ∈ a :: l, x ≠ a) :
    validate_all_matching_items (a :: l) d =
      .err (d ++ " provided do not match, key recovery cannot be validated") := by
  rw [validate_all_matching_items_cons, if_neg]
  intro hall
  rcases hx with ⟨x, hmem, hne⟩
  exact hne (of_decide_eq_true (List.all_eq_true.mp hall x hmem))

lemma recover_and_validate_secret_ok {S P : Type} [CommRing S] [AddCommGroup P]
    [Module S P] [DecidableEq P] [DecidableEq S] {g : P} {recovery_index : Nat}
    {share_infos : List (ShareRecoveryInfo S P)} {secret : S}
    {vss : List (VSS P)} {y_sum : P}
    (h : recover_and_validate_secret g recovery_index share_infos =
      .ok (secret, vss, y_sum)) :
    share_infos ≠ [] ∧
    (∀ info ∈ share_infos, info.vss_vec = vss) ∧
    secret = (share_infos.map (fun x => x.part_secret)).sum ∧
    vss_commitment_sum S vss (recovery_index % 65536) = some (secret • g) := by
  unfold recover_and_validate_secret at h
  simp only [] at h
  split at h
  · cases h
  · cases h
  · rename_i vss' hvss
    split at h
    · cases h
    · rename_i y_sum' hy
      split at h
      · cases h
      · cases h
      · rename_i u hval
        cases h
        have hmatch := validate_all_matching_items_ok hvss
        refine ⟨?_, ?_, rfl, ?_⟩
        · intro hnil
          exact hmatch.1 (by simp [hnil])
        · intro info hinfo
          exact hmatch.2 info.vss_vec (List.mem_map_of_mem _ hinfo)
        · unfold validate_recovered_share at hval
          split at hval
          · cases hval
          · rename_i total htotal
            split at hval
            · rename_i heq
              rw [htotal, heq]
            · cases hval

lemma recover_and_validate_secret_err {S P : Type} [CommRing S] [AddCommGroup P]
    [Module S P] [DecidableEq P] [DecidableEq S] {g : P} {recovery_index : Nat}
    {share_infos : List (ShareRecoveryInfo S P)} {m : String}
    (h : validate_all_matching_items (share_infos.map (fun x => x.vss_vec))
      "VSS scheme vecs" = .err m) :
    recover_and_validate_secret g recovery_index share_infos = .err m := by
  unfold recover_and_validate_secret
  simp only []
  rw [h]

lemma EdDSA_process_err {S P : Type} [CommRing S] [AddCommGroup P]
    [Module S P] [DecidableEq P] [DecidableEq S] {g : P}
    {recovery_index threshold : Nat} {pkgs : List (EdDSARecoveryPackage S P)}
    {m : String}
    (h : recover_and_validate_secret g recovery_index
      (pkgs.map (fun x => x.share_recovery_info)) = .err m) :
    EdDSA_process_recovery_packages g recovery_index threshold pkgs =
      .ok (.error (valFailMsg m), none) := by
  unfold EdDSA_process_recovery_packages
  simp only []
  rw [h]

lemma EdDSA_process_forms {S P : Type} [CommRing S] [AddCommGroup P]
    [Module S P] [DecidableEq P] [DecidableEq S] {g : P}
    {recovery_index threshold : Nat} {pkgs : List (EdDSARecoveryPackage S P)}
    {res : RecoveryValidationResult} {st : Option (EDDSAKeyshare S P)}
    (h : EdDSA_process_recovery_packages g recovery_index threshold pkgs =
      .ok (res, st)) :
    (res = .validated ∧ ∃ ks, st = some ks) ∨
    (∃ m, res = .error m ∧ st = none) := by
  unfold EdDSA_process_recovery_packages at h
  simp only [] at h
  split at h
  · cases h
  · cases h
    right
    exact ⟨_, rfl, rfl⟩
  · cases h
    left
    exact ⟨rfl, _, rfl⟩

lemma ECDSA_process_forms {S P : Type} [CommRing S] [AddCommGroup P]
    [Module S P] [DecidableEq P] [DecidableEq S] {g : P}
    {recovery_index threshold fresh_ek fresh_dk : Nat}
    {cpkgs : List (ECDSARecoveryPackage S P)}
    {res : RecoveryValidationResult} {st : Option (ECDSAKeyshare S P)}
    (h : ECDSA_process_recovery_packages g recovery_index threshold fresh_ek
      fresh_dk cpkgs = .ok (res, st)) :
    ((∃ ek, res = .validatedWithEks ek) ∧ ∃ ks, st = some ks) ∨
    (∃ m, res = .error m ∧ st = none) := by
  unfold ECDSA_process_recovery_packages at h
  simp only [] at h
  split at h
  · cases h
  · cases h
    right
    exact ⟨_, rfl, rfl⟩
  · split at h
    · cases h
    · cases h
      right
      exact ⟨_, rfl, rfl⟩
    · cases h
      left
      exact ⟨⟨_, rfl⟩, _, rfl⟩

lemma validate_ecdsa_items_ok {S P : Type} [DecidableEq S] [DecidableEq P]
    {cpkgs : List (ECDSARecoveryPackage S P)} {recovery_index fresh_ek fresh_dk : Nat}
    {items : ECDSASpecificValidatedRecoveryItems P}
    (h : validate_ecdsa_specific_recovery_package_items cpkgs recovery_index
      fresh_ek fresh_dk = .ok items) :
    (∀ p ∈ cpkgs, p.public_key_vec = items.public_key_vec) ∧
    (∀ p q, p ∈ cpkgs → q ∈ cpkgs → p.paillier_key_vec = q.paillier_key_vec) := by
  unfold validate_ecdsa_specific_recovery_package_items at h
  simp only [] at h
  split at h
  · cases h
  · rename_i h1vec hhead
    split at h
    · cases h
    · cases h
    · rename_i pubvec hpub
      split at h
      · cases h
      · cases h
      · rename_i pvec hpail
        split at h
        · cases h
        · cases h
          have hpubs := validate_all_matching_items_ok hpub
          have hpails := validate_all_matching_items_ok hpail
          constructor
          · intro p hp
            exact hpubs.2 p.public_key_vec (List.mem_map_of_mem _ hp)
          · intro p q hp hq
            have h1 := hpails.2 p.paillier_key_vec (List.mem_map_of_mem _ hp)
            have h2 := hpails.2 q.paillier_key_vec (List.mem_map_of_mem _ hq)
            rw [h1, h2]

lemma EdDSA_process_accept {S P : Type} [CommRing S] [AddCommGroup P]
    [Module S P] [DecidableEq P] [DecidableEq S] {g : P}
    {recovery_index threshold : Nat} {pkgs : List (EdDSARecoveryPackage S P)}
    {ks : EDDSAKeyshare S P}
    (h : EdDSA_process_recovery_packages g recovery_index threshold pkgs =
      .ok (.validated, some ks)) :
    recover_and_validate_secret g recovery_index
      (pkgs.map (fun x => x.share_recovery_info)) =
      .ok (ks.x_i, ks.vss_scheme_vec, ks.y_sum) := by
  unfold EdDSA_process_recovery_packages at h
  simp only [] at h
  split at h
  · cases h
  · cases h
  · rename_i recovered_secret vss y_sum hrec
    cases h
    exact hrec

lemma ECDSA_process_accept {S P : Type} [CommRing S] [AddCommGroup P]
    [Module S P] [DecidableEq P] [DecidableEq S] {g : P}
    {recovery_index threshold fresh_ek fresh_dk : Nat}
    {cpkgs : List (ECDSARecoveryPackage S P)} {ek : Nat} {ks : ECDSAKeyshare S P}
    (h : ECDSA_process_recovery_packages g recovery_index threshold fresh_ek
      fresh_dk cpkgs = .ok (.validatedWithEks ek, some ks)) :
    recover_and_validate_secret g recovery_index
      (cpkgs.map (fun x => x.share_recovery_info)) =
      .ok (ks.x_i, ks.vss_scheme_vec, ks.y_sum) ∧
    ∃ items, validate_ecdsa_specific_recovery_package_items cpkgs recovery_index
      fresh_ek fresh_dk = .ok items ∧ ks.public_key_vec = items.public_key_vec := by
  unfold ECDSA_process_recovery_packages at h
  simp only [] at h
  split at h
  · cases h
  · cases h
  · rename_i x_i vss_scheme_vec y_sum hrec
    split at h
    · cases h
    · cases h
    · rename_i items hitems
      cases h
      exact ⟨hrec, items, hitems, rfl⟩

/-- C10.  Invoked with an empty list of recovery packages, the target's
validation panics on an unchecked first-element index — `items[0]` in
`validate_all_matching_items` and `h1_h2_N_tilde_vecs[0]` in the
ECDSA-specific validation — instead of returning the `Error` validation
result, and the non-panicking `Error` branch is reachable only when at least
one package is present. -/
theorem C10_empty_packages_panic :
    (∀ (T : Type) (inst : DecidableEq T) (d : String),
      @validate_all_matching_items T inst [] d = .panic) ∧
    (∀ (S P : Type) (i1 : DecidableEq S) (i2 : DecidableEq P)
      (recovery_index fresh_ek fresh_dk : Nat),
      @validate_ecdsa_specific_recovery_package_items S P i1 i2 []
        recovery_index fresh_ek fresh_dk = .panic) ∧
    (∀ (S P : Type) (i1 : CommRing S) (i2 : AddCommGroup P) (i3 : Module S P)
      (i4 : DecidableEq P) (i5 : DecidableEq S) (g : P) (r t : Nat),
      @EdDSA_process_recovery_packages S P i1 i2 i3 i4 i5 g r t [] = .panic) ∧
    (∀ (S P : Type) (i1 : CommRing S) (i2 : AddCommGroup P) (i3 : Module S P)
      (i4 : DecidableEq P) (i5 : DecidableEq S) (g : P) (r t fek fdk : Nat),
      @ECDSA_process_recovery_packages S P i1 i2 i3 i4 i5 g r t fek fdk [] = .panic) ∧
    (∀ (S P : Type) (i1 : CommRing S) (i2 : AddCommGroup P) (i3 : Module S P)
      (i4 : DecidableEq P) (i5 : DecidableEq S) (g : P) (r t : Nat)
      (pkgs : List (EdDSARecoveryPackage S P)) (m : String)
      (st : Option (EDDSAKeyshare S P)),
      @EdDSA_process_recovery_packages S P i1 i2 i3 i4 i5 g r t pkgs =
        .ok (.error m, st) → pkgs ≠ []) ∧
    (∀ (S P : Type) (i1 : CommRing S) (i2 : AddCommGroup P) (i3 : Module S P)
      (i4 : DecidableEq P) (i5 : DecidableEq S) (g : P) (r t fek fdk : Nat)
      (cpkgs : List (ECDSARecoveryPackage S P)) (m : String)
      (st : Option (ECDSAKeyshare S P)),
      @ECDSA_process_recovery_packages S P i1 i2 i3 i4 i5 g r t fek fdk cpkgs =
        .ok (.error m, st) → cpkgs ≠ []) := by
  refine ⟨fun T inst d => rfl, fun S P i1 i2 r fek fdk => rfl,
    fun S P i1 i2 i3 i4 i5 g r t => rfl,
    fun S P i1 i2 i3 i4 i5 g r t fek fdk => rfl, ?_, ?_⟩
  · intro S P i1 i2 i3 i4 i5 g r t pkgs m st h hnil
    subst hnil
    cases h
  · intro S P i1 i2 i3 i4 i5 g r t fek fdk cpkgs m st h hnil
    subst hnil
    cases h

/-- A concrete one-helper EdDSA recovery package over `S = P = ℤ` with
generator `g = 1`: partial secret `0`, single VSS scheme with commitment
vector `[0]`. -/
def egPkg : EdDSARecoveryPackage Int Int := ⟨⟨0, [⟨[0]⟩]⟩⟩

/-- A package disagreeing with `egPkg` on the VSS vector. -/
def egPkgB : EdDSARecoveryPackage Int Int := ⟨⟨0, [⟨[1]⟩]⟩⟩

/-- Witness for C10: a mismatching two-package input reaches the `Error`
branch, so by the theorem the package list is non-empty. -/
theorem C10_empty_packages_panic_witness :
    (@EdDSA_process_recovery_packages Int Int _ _ _ _ _ 1 1 3 [egPkg, egPkgB] =
      .ok (.error (valFailMsg
        "VSS scheme vecs provided do not match, key recovery cannot be validated"),
        none)) ∧
    ([egPkg, egPkgB] : List (EdDSARecoveryPackage Int Int)) ≠ [] := by
  have hrun : @EdDSA_process_recovery_packages Int Int _ _ _ _ _ 1 1 3 [egPkg, egPkgB] =
      .ok (.error (valFailMsg
        "VSS scheme vecs provided do not match, key recovery cannot be validated"),
        none) := by decide
  exact ⟨hrun, C10_empty_packages_panic.2.2.2.2.1 Int Int _ _ _ _ _ 1 1 3
    [egPkg, egPkgB] _ _ hrun⟩

/-- C5 (amended).  For a recovery-package set, the target accepts (result
`Validated`, keyshare written) only if every helper supplied the same VSS
vector — and for ECDSA additionally the same public-key vector and the same
Paillier-key vector — and `g * (sum of partial secrets)` equals the sum of
the common VSS vector's point commitments at the recovery index reduced
modulo `2^16` (the `index as u16` cast of `validate_recovered_share`); an
`Error` result writes no keyshare, and mismatching VSS vectors always produce
an `Error` result with no keyshare written. -/
theorem C5_recovery_target_validation {S P : Type} [CommRing S] [AddCommGroup P]
    [Module S P] [DecidableEq P] [DecidableEq S] (g : P)
    (recovery_index threshold fresh_ek fresh_dk : Nat)
    (pkgs : List (EdDSARecoveryPackage S P))
    (cpkgs : List (ECDSARecoveryPackage S P)) :
    (∀ ks, EdDSA_process_recovery_packages g recovery_index threshold pkgs =
        .ok (.validated, some ks) →
      pkgs ≠ [] ∧
      (∀ p ∈ pkgs, p.share_recovery_info.vss_vec = ks.vss_scheme_vec) ∧
      vss_commitment_sum S ks.vss_scheme_vec (recovery_index % 65536) =
        some ((pkgs.map (fun p => p.share_recovery_info.part_secret)).sum • g)) ∧
    (∀ ek ks, ECDSA_process_recovery_packages g recovery_index threshold
        fresh_ek fresh_dk cpkgs = .ok (.validatedWithEks ek, some ks) →
      cpkgs ≠ [] ∧
      (∀ p ∈ cpkgs, p.share_recovery_info.vss_vec = ks.vss_scheme_vec) ∧
      (∀ p ∈ cpkgs, p.public_key_vec = ks.public_key_vec) ∧
      (∀ p q, p ∈ cpkgs → q ∈ cpkgs → p.paillier_key_vec = q.paillier_key_vec) ∧
      vss_commitment_sum S ks.vss_scheme_vec (recovery_index % 65536) =
        some ((cpkgs.map (fun p => p.share_recovery_info.part_secret)).sum • g)) ∧
    (∀ m st, EdDSA_process_recovery_packages g recovery_index threshold pkgs =
        .ok (.error m, st) → st = none) ∧
    (∀ m st, ECDSA_process_recovery_packages g recovery_index threshold
        fresh_ek fresh_dk cpkgs = .ok (.error m, st) → st = none) ∧
    (∀ p0 rest, pkgs = p0 :: rest →
      (∃ p ∈ pkgs, p.share_recovery_info.vss_vec ≠ p0.share_recovery_info.vss_vec) →
      EdDSA_process_recovery_packages g recovery_index threshold pkgs =
        .ok (.error (valFailMsg ("VSS scheme vecs" ++
          " provided do not match, key recovery cannot be validated")), none)) := by
  refine ⟨?_, ?_, ?_, ?_, ?_⟩
  · intro ks h
    have hrec := EdDSA_process_accept h
    obtain ⟨hne, hvss, hsum, heq⟩ := recover_and_validate_secret_ok hrec
    refine ⟨?_, ?_, ?_⟩
    · intro hnil
      exact hne (by simp [hnil])
    · intro p hp
      exact hvss p.share_recovery_info (List.mem_map_of_mem _ hp)
    · rw [heq, hsum, List.map_map]
      rfl
  · intro ek ks h
    obtain ⟨hrec, items, hitems, hpub⟩ := ECDSA_process_accept h
    obtain ⟨hne, hvss, hsum, heq⟩ := recover_and_validate_secret_ok hrec
    obtain ⟨hpubs, hpails⟩ := validate_ecdsa_items_ok hitems
    refine ⟨?_, ?_, ?_, hpails, ?_⟩
    · intro hnil
      exact hne (by simp [hnil])
    · intro p hp
      exact hvss p.share_recovery_info (List.mem_map_of_mem _ hp)
    · intro p hp
      rw [hpub]
      exact hpubs p hp
    · rw [heq, hsum, List.map_map]
      rfl
  · intro m st h
    rcases EdDSA_process_forms h with ⟨hres, _⟩ | ⟨m', hres, hst⟩
    · cases hres
    · exact hst
  · intro m st h
    rcases ECDSA_process_forms h with ⟨⟨ek, hres⟩, _⟩ | ⟨m', hres, hst⟩
    · cases hres
    · exact hst
  · intro p0 rest hpk hex
    subst hpk
    apply EdDSA_process_err
    apply recover_and_validate_secret_err
    apply validate_all_matching_items_err_of_ne
    rcases hex with ⟨p, hp, hne⟩
    exact ⟨p.share_recovery_info.vss_vec,
      List.mem_map_of_mem _ (List.mem_map_of_mem _ hp), hne⟩

/-- The keyshare written by the concrete accepted EdDSA run of `egPkg`. -/
def egKs : EDDSAKeyshare Int Int := ⟨3, 1, 0, 0, [⟨[0]⟩]⟩

/-- Witness for C5: a concrete accepted two-package EdDSA recovery over
`ℤ` with generator `1`, recovery index `1`; the theorem yields the agreement
and point-equation conditions. -/
theorem C5_recovery_target_validation_witness :
    (@EdDSA_process_recovery_packages Int Int _ _ _ _ _ 1 1 3 [egPkg, egPkg] =
      .ok (.validated, some egKs)) ∧
    (([egPkg, egPkg] : List (EdDSARecoveryPackage Int Int)) ≠ [] ∧
      (∀ p ∈ ([egPkg, egPkg] : List (EdDSARecoveryPackage Int Int)),
        p.share_recovery_info.vss_vec = egKs.vss_scheme_vec) ∧
      vss_commitment_sum Int egKs.vss_scheme_vec (1 % 65536) =
        some ((([egPkg, egPkg] : List (EdDSARecoveryPackage Int Int)).map
          (fun p => p.share_recovery_info.part_secret)).sum • (1 : Int))) := by
  have hrun : @EdDSA_process_recovery_packages Int Int _ _ _ _ _ 1 1 3 [egPkg, egPkg] =
      .ok (.validated, some egKs) := by decide
  exact ⟨hrun, (C5_recovery_target_validation 1 1 3 11 13 [egPkg, egPkg] []).1
    egKs hrun⟩

/-- A one-helper EdDSA recovery package over `S = P = ℤ` with generator `1`
whose single VSS scheme has commitment vector `[0, 1]`, so its point
commitment at index `i` is `i`; partial secret `1`. -/
def egPkgT : EdDSARecoveryPackage Int Int := ⟨⟨1, [⟨[0, 1]⟩]⟩⟩

/-- The keyshare written by the accepted run of `egPkgT` at recovery index
`65537`. -/
def egKsT : EDDSAKeyshare Int Int := ⟨3, 65537, 1, 0, [⟨[0, 1]⟩]⟩

/-- C5 counterexample.  At recovery index `65537` the target accepts a
package set although the point-commitment sum at the recovery index itself
differs from `g * (sum of partial secrets)`: the `index as u16` cast in
`validate_recovered_share` (`calculator.rs` lines 106 and 109) evaluates the
commitments at `65537 % 2^16 = 1` instead, so the claim's acceptance
condition at the untruncated recovery index is false of the program. -/
theorem C5_counterexample_truncated_index :
    (@EdDSA_process_recovery_packages Int Int _ _ _ _ _ 1 65537 3 [egPkgT] =
      .ok (.validated, some egKsT)) ∧
    vss_commitment_sum Int egKsT.vss_scheme_vec 65537 ≠
      some ((([egPkgT] : List (EdDSARecoveryPackage Int Int)).map
        (fun p => p.share_recovery_info.part_secret)).sum • (1 : Int)) ∧
    vss_commitment_sum Int egKsT.vss_scheme_vec (65537 % 65536) =
      some ((([egPkgT] : List (EdDSARecoveryPackage Int Int)).map
        (fun p => p.share_recovery_info.part_secret)).sum • (1 : Int)) :=
  ⟨by decide, by decide, by decide⟩

/-- A concrete ECDSA recovery package over `S = P = ℤ` whose Paillier key
vector `[6, 9]` contains moduli with prime factors far below `2^16`
(`6 = 2 * 3`, `9 = 3 * 3`). -/
def egCPkg : ECDSARecoveryPackage Int Int := ⟨⟨0, [⟨[0]⟩]⟩, [0], [6, 9], [0]⟩

/-- The keyshare written by the concrete ECDSA run of two `egCPkg` packages
with recovery index `1` and fresh Paillier keypair `(11, 13)`. -/
def egCKs : ECDSAKeyshare Int Int := ⟨3, 0, 0, 1, [0], [⟨[0]⟩], [11, 9], [0], 13⟩

/-- C2.  The recovery target's package validation performs no small-prime
check: a package set whose Paillier key vector contains the modulus `9`
(prime factor `3 < 2^16`) is validated and the vector — still containing
`9` at position 2 — is written into the new keyshare, although
`check_for_small_primes` rejects `9`.  (The keygen-commit and
update-command paths do call the guard, cf. the C1 theorems; the
recovery-package path does not.) -/
theorem C2_recovery_package_small_prime_key_not_rejected :
    (@ECDSA_process_recovery_packages Int Int _ _ _ _ _ 1 1 3 11 13
      [egCPkg, egCPkg] = .ok (.validatedWithEks 11, some egCKs)) ∧
    9 ∈ egCPkg.paillier_key_vec ∧
    9 ∈ egCKs.paillier_key_vec ∧
    check_for_small_primes 9 = .error cveMsg := by
  refine ⟨by decide, by decide, by decide, ?_⟩
  exact @check_for_small_primes_error 3 9 (by norm_num)
    (by unfold MAX_PRIME; norm_num) (by norm_num)

/-! ### Recovery-session index-zero guard (`recovery/recovery_session.rs`) -/

/-- `Key` from `shared/recovery.rs`: the keyshare kind. -/
inductive Key where
  | ECDSA
  | EDDSA
  | Sr25519
  deriving DecidableEq

/-- The guard of `NewKeyShareRecoverySession::handle` (lines 60-68): the
first match arm lets `Sr25519` through, the second rejects any other kind
when `recovery_index == 0`. -/
def recovery_index_zero_guard (kind : Key) (recovery_index : Nat) :
    Except String Unit :=
  match kind with
  | .Sr25519 => .ok ()
  | _ =>
    if recovery_index = 0 then
      .error "Recovery of the zero index keyshare (the underlying secret key) is restricted to Sr25519 recoveries"
    else .ok ()

/-- Marker for having reached the role dispatch of
`NewKeyShareRecoverySession::handle`, where the protocol rounds run. -/
inductive SessionOutcome where
  | roundsRun
  deriving DecidableEq

/-- The control flow of `NewKeyShareRecoverySession::handle` up to the role
dispatch: e-mail lookup, node-identity load, then the index-zero guard; the
protocol rounds (`roundsRun`) start only after all three succeed.  The two
fallible environment steps are abstracted by the booleans. -/
def NewKeyShareRecoverySession_handle (kind : Key) (recovery_index : Nat)
    (email_ok node_ok : Bool) : Except String SessionOutcome :=
  match email_ok with
  | false => .error "Could not find email associated with key_id"
  | true =>
    match node_ok with
    | false => .error "Node identity is not retrievable"
    | true =>
      match recovery_index_zero_guard kind recovery_index with
      | .error m => .error m
      | .ok _ => .ok .roundsRun

/-- C6.  An incoming share-recovery session whose key kind is not `Sr25519`
and whose `recovery_index` is `0` errors out before any protocol round runs;
an `Sr25519` session is not rejected by this guard for `recovery_index = 0`. -/
theorem C6_recovery_index_zero_guard :
    (∀ kind, kind ≠ Key.Sr25519 → ∀ email_ok node_ok,
      ∃ m, NewKeyShareRecoverySession_handle kind 0 email_ok node_ok = .error m) ∧
    (∀ kind, kind ≠ Key.Sr25519 →
      NewKeyShareRecoverySession_handle kind 0 true true =
        .error "Recovery of the zero index keyshare (the underlying secret key) is restricted to Sr25519 recoveries") ∧
    recovery_index_zero_guard Key.Sr25519 0 = .ok () ∧
    NewKeyShareRecoverySession_handle Key.Sr25519 0 true true = .ok .roundsRun := by
  refine ⟨?_, ?_, rfl, rfl⟩
  · intro kind hk email_ok node_ok
    cases kind with
    | Sr25519 => exact absurd rfl hk
    | ECDSA =>
      cases email_ok with
      | false => exact ⟨_, rfl⟩
      | true =>
        cases node_ok with
        | false => exact ⟨_, rfl⟩
        | true => exact ⟨_, rfl⟩
    | EDDSA =>
      cases email_ok with
      | false => exact ⟨_, rfl⟩
      | true =>
        cases node_ok with
        | false => exact ⟨_, rfl⟩
        | true => exact ⟨_, rfl⟩
  · intro kind hk
    cases kind with
    | Sr25519 => exact absurd rfl hk
    | ECDSA => rfl
    | EDDSA => rfl

/-- Witness for C6: the `ECDSA` kind at recovery index `0` is rejected. -/
theorem C6_recovery_index_zero_guard_witness :
    Key.ECDSA ≠ Key.Sr25519 ∧
    NewKeyShareRecoverySession_handle Key.ECDSA 0 true true =
      .error "Recovery of the zero index keyshare (the underlying secret key) is restricted to Sr25519 recoveries" :=
  ⟨by decide, C6_recovery_index_zero_guard.2.1 Key.ECDSA (by decide)⟩

/-! ### ECDSA signing phase 5 control flow (`signing/ecdsa/session.rs`) -/

/-- Outcome of a fallible protocol step, abstracting the cryptographic
computation it performs. -/
inductive StepResult where
  | ok
  | fail
  deriving DecidableEq

/-- What `SignSession::phase5` records besides its returned data: whether the
phase-5 blame routine (`phase5_blame`, which reconstructs `LocalStatePhase5`,
runs `GlobalStatePhase5::phase5_blame` and logs the offenders) was invoked. -/
structure Phase5Outcome where
  blame_invoked : Bool
  deriving DecidableEq

/-- The control flow of `SignSession::phase5` (`session.rs` lines 676-726):
broadcast and collect the `R'` values (`collect_r_dash`), verify the
PDL-with-slack proofs (`pdl_verify`), then match on
`LocalSignature::phase5_check_R_dash_sum`: on `Ok` continue, on `Err` log,
run `phase5_blame` — and still return `Ok(Phase5Data)`. -/
def phase5_control (collect_r_dash pdl_verify r_dash_sum_check : StepResult) :
    Except String Phase5Outcome :=
  match collect_r_dash with
  | .fail => .error "Timeout while waiting on phase5"
  | .ok =>
    match pdl_verify with
    | .fail => .error "phase5_verify_pdl failed"
    | .ok =>
      match r_dash_sum_check with
      | .ok => .ok { blame_invoked := false }
      | .fail => .ok { blame_invoked := true }

/-- The chaining in `SignSession::sign` (`session.rs` lines 999-1022):
`phase6` runs exactly when `phase5` returned `Ok`. -/
def sign_reaches_phase6 (collect_r_dash pdl_verify r_dash_sum_check : StepResult) :
    Bool :=
  match phase5_control collect_r_dash pdl_verify r_dash_sum_check with
  | .ok _ => true
  | .error _ => false

/-- C3, counterexample.  When the phase-5 `R'` sum check fails (with
collection and PDL verification succeeding), `phase5` invokes the blame
routine but still returns `Ok`, so the session *does* continue to phase 6 —
contradicting the claim that the protocol proceeds past phase 5 only when
that verification succeeds. -/
theorem C3_counterexample_phase5_continues_after_failed_sum_check :
    phase5_control .ok .ok .fail = .ok { blame_invoked := true } ∧
    sign_reaches_phase6 .ok .ok .fail = true := by
  exact ⟨rfl, rfl⟩

/-- C3, amended.  If the phase-5 consistency check on the sum of the
broadcast `R'` values fails, the session runs the phase-5 blame routine and
logs the offenders, but then continues to phase 6 anyway; phase 5 aborts the
session only when collection of the `R'` broadcasts fails or the
PDL-with-slack proof verification fails. -/
theorem C3_phase5_blame_logs_and_continues :
    (∀ s, phase5_control .ok .ok s = .ok { blame_invoked := decide (s = .fail) }) ∧
    (∀ s, sign_reaches_phase6 .ok .ok s = true) ∧
    (∀ p s, phase5_control .fail p s = .error "Timeout while waiting on phase5") ∧
    (∀ s, phase5_control .ok .fail s = .error "phase5_verify_pdl failed") ∧
    (∀ p s, sign_reaches_phase6 .fail p s = false) ∧
    (∀ s, sign_reaches_phase6 .ok .fail s = false) := by
  refine ⟨?_, ?_, ?_, ?_, ?_, ?_⟩
  · intro s
    cases s <;> rfl
  · intro s
    cases s <;> rfl
  · intro p s
    rfl
  · intro s
    rfl
  · intro p s
    rfl
  · intro s
    rfl

/-! ### Signing-request timestamp gate (`signing/ecdsa/session.rs` lines
1025-1259)

Timestamps are RFC3339 strings parsed into `DateTime<Utc>`; the embedding
represents a parsed timestamp by an integer (its instant on the time line)
and a parse result by `Option Int` (`none` = unparseable).  The stored
per-`(key_id, email)` metadata is `Option (Option Int)`: `none` when no
timestamp has been stored yet, `some none` when the stored string does not
parse, `some (some p)` for a stored instant `p`.  `KeyMetadataStore::save` is
modelled as succeeding (on a save failure the source returns `false` as
well). -/

/-- `verify_timestamp` from `session.rs` lines 1215-1259: parse the new
timestamp, reject unless it is strictly newer than any stored one, then store
it.  Returns the verdict together with the new stored state. -/
def verify_timestamp (parse_new : Option Int) (prev : Option (Option Int)) :
    Bool × Option (Option Int) :=
  match parse_new with
  | none => (false, prev)
  | some t =>
    match prev with
    | some stored_parse =>
      match stored_parse with
      | none => (false, prev)
      | some p => if t ≤ p then (false, prev) else (true, some (some t))
    | none => (true, some (some t))

/-- The security gate of `handle_new_session_message` (`session.rs` lines
1025-1203): required fields, signing-key decryption, HMAC, timestamp,
transfer-transaction check, access-key check — in that order; the returned
boolean says whether a signing worker thread is spawned, the second component
is the stored timestamp state after the gate.  All failures are logged, not
returned (the source function returns `()` either way). -/
def handle_sign_session_gate (fields_present decrypt_ok hmac_ok : Bool)
    (parse_new : Option Int) (prev : Option (Option Int))
    (transfer_check_ok access_key_ok : Bool) : Bool × Option (Option Int) :=
  match fields_present with
  | false => (false, prev)
  | true =>
    match decrypt_ok with
    | false => (false, prev)
    | true =>
      match hmac_ok with
      | false => (false, prev)
      | true =>
        match verify_timestamp parse_new prev with
        | (false, st) => (false, st)
        | (true, st) =>
          match transfer_check_ok with
          | false => (false, st)
          | true =>
            match access_key_ok with
            | false => (false, st)
            | true => (true, st)

lemma verify_timestamp_stale {t p : Int} (h : t ≤ p) :
    verify_timestamp (some t) (some (some p)) = (false, some (some p)) := by
  show (if t ≤ p then ((false, some (some p)) : Bool × Option (Option Int))
    else (true, some (some t))) = (false, some (some p))
  rw [if_pos h]

lemma verify_timestamp_fresh {t p : Int} (h : p < t) :
    verify_timestamp (some t) (some (some p)) = (true, some (some t)) := by
  show (if t ≤ p then ((false, some (some p)) : Bool × Option (Option Int))
    else (true, some (some t))) = (true, some (some t))
  rw [if_neg (not_le.mpr h)]

lemma verify_timestamp_accept_inv {parse_new : Option Int}
    {prev st : Option (Option Int)}
    (h : verify_timestamp parse_new prev = (true, st)) :
    ∃ t, parse_new = some t ∧ st = some (some t) ∧
      ∀ p, prev = some (some p) → p < t := by
  unfold verify_timestamp at h
  split at h
  · cases h
  · rename_i t
    split at h
    · rename_i stored_parse
      split at h
      · cases h
      · rename_i p
        split at h
        · cases h
        · rename_i hle
          cases h
          exact ⟨t, rfl, rfl, fun q hq => by
            cases hq
            exact lt_of_not_le hle⟩
    · cases h
      exact ⟨t, rfl, rfl, fun q hq => by cases hq⟩

lemma handle_sign_session_gate_accept_inv {fields decrypt hmac transfer access : Bool}
    {parse_new : Option Int} {prev st : Option (Option Int)}
    (h : handle_sign_session_gate fields decrypt hmac parse_new prev transfer access =
      (true, st)) :
    verify_timestamp parse_new prev = (true, st) := by
  unfold handle_sign_session_gate at h
  cases fields with
  | false => simp at h
  | true =>
    cases decrypt with
    | false => simp at h
    | true =>
      cases hmac with
      | false => simp at h
      | true =>
        cases hveq : verify_timestamp parse_new prev with
        | mk vb vst =>
          rw [hveq] at h
          cases vb with
          | false => simp at h
          | true =>
            cases transfer with
            | false => simp at h
            | true =>
              cases access with
              | false => simp at h
              | true =>
                simp at h
                rw [h]

/-- C9.  The per-`(key_id, email)` timestamp gate of the ECDSA signing
request handler: a timestamp not strictly greater than the stored one makes
the request drop with no state change and no signing worker; a strictly
greater (or first) timestamp is stored by `verify_timestamp` — hence before
the signing worker is spawned — and any accepted request's timestamp is
strictly greater than the previously stored one, so the stored timestamp is
strictly increasing across accepted requests. -/
theorem C9_timestamp_strictly_increasing
    (fields decrypt hmac transfer access : Bool) (t p : Int)
    (prev : Option (Option Int)) :
    (prev = some (some p) → t ≤ p →
      handle_sign_session_gate fields decrypt hmac (some t) prev transfer access =
        (false, prev)) ∧
    (∀ st, handle_sign_session_gate fields decrypt hmac (some t) prev transfer
        access = (true, st) →
      st = some (some t) ∧
      verify_timestamp (some t) prev = (true, some (some t)) ∧
      ∀ q, prev = some (some q) → q < t) ∧
    (prev = none ∨ (prev = some (some p) ∧ p < t) →
      verify_timestamp (some t) prev = (true, some (some t))) ∧
    (prev = some (some p) → p < t →
      handle_sign_session_gate true true true (some t) prev true true =
        (true, some (some t))) := by
  refine ⟨?_, ?_, ?_, ?_⟩
  · intro hp hle
    subst hp
    cases fields with
    | false => rfl
    | true =>
      cases decrypt with
      | false => rfl
      | true =>
        cases hmac with
        | false => rfl
        | true =>
          unfold handle_sign_session_gate
          rw [verify_timestamp_stale hle]
  · intro st h
    have hv := handle_sign_session_gate_accept_inv h
    obtain ⟨t', ht', hst, hmono⟩ := verify_timestamp_accept_inv hv
    cases ht'
    refine ⟨hst, ?_, hmono⟩
    rw [hv, hst]
  · intro hcase
    rcases hcase with hnone | ⟨hp, hlt⟩
    · subst hnone
      rfl
    · subst hp
      exact verify_timestamp_fresh hlt
  · intro hp hlt
    subst hp
    unfold handle_sign_session_gate
    rw [verify_timestamp_fresh hlt]

/-- Witness for C9: with stored timestamp `1`, a request at `1` is dropped
with the store unchanged, and a request at `2` is accepted and stores `2`. -/
theorem C9_timestamp_strictly_increasing_witness :
    handle_sign_session_gate true true true (some 1) (some (some (1 : Int)))
      true true = (false, some (some (1 : Int))) ∧
    handle_sign_session_gate true true true (some 2) (some (some (1 : Int)))
      true true = (true, some (some (2 : Int))) := by
  constructor
  · exact (C9_timestamp_strictly_increasing true true true true true 1 1
      (some (some 1))).1 rfl (by norm_num)
  · exact (C9_timestamp_strictly_increasing true true true true true 2 1
      (some (some 1))).2.2.2 rfl (by norm_num)

/-! ### Recovery helper's linear secret sharing (`recovery/calculator.rs`)

Curve scalars form a field `K`; the Lagrange-coefficient computation divides,
and `invert().expect(...)` panics on a zero denominator, modelled by
`Option`. -/

/-- `RecoveryCalculator::map_share_to_new_params_for_x` from `calculator.rs`
lines 144-181: the Lagrange coefficient at `x = x_index` for party `index`
over the index set `s`.  The source builds `points[k] = (k + 1) as u32` for
every needed `k` (line 154, so the evaluation point wraps modulo `2^32`) and
folds the numerator `∏ (points[s[i]] - points[x_index])` and denominator
`∏ (points[s[i]] - points[index])` over the entries of `s` with
`s[i] ≠ index`; `none` models the `expect("Denum is not zero")` panic. -/
def map_share_to_new_params_for_x {K : Type} [Field K] [DecidableEq K]
    (x_index index : Nat) (s : List Nat) : Option K :=
  let point : Nat → K := fun k => (((k + 1) % 4294967296 : Nat) : K)
  let x := point x_index
  let xi := point index
  let num := s.foldl (fun acc si => if si ≠ index then acc * (point si - x) else acc) 1
  let denum := s.foldl (fun acc si => if si ≠ index then acc * (point si - xi) else acc) 1
  if denum = 0 then none else some (num * denum⁻¹)

/-- `LinearShareParts` from `calculator.rs`. -/
structure LinearShareParts (K : Type) where
  retained : K
  for_peer_exchange : List K
  deriving DecidableEq

/-- `RecoveryCalculator::create_linear_shares_of_scalar` from `calculator.rs`
lines 74-91: draw `num_of_shares` random scalars `rij` (passed in here as the
list `rij`), retain `scalar - Σ rij`, and hand `rij` out for peer exchange. -/
def create_linear_shares_of_scalar {K : Type} [Field K] (scalar : K)
    (rij : List K) : LinearShareParts K :=
  { retained := scalar - rij.sum, for_peer_exchange := rij }

/-- `RecoveryCalculator::create_secret_sharing_of_lost_share` from
`calculator.rs` lines 43-52: multiply the own share by the Lagrange
coefficient `λ` and split linearly; the list `rij` stands for the
`threshold`-many random scalars drawn in `create_linear_shares_of_scalar`. -/
def create_secret_sharing_of_lost_share {K : Type} [Field K] [DecidableEq K]
    (recovery_index party_index : Nat) (all_parties : List Nat)
    (secret_share : K) (rij : List K) : Option (LinearShareParts K) :=
  match map_share_to_new_params_for_x recovery_index party_index all_parties with
  | none => none
  | some li => some (create_linear_shares_of_scalar (secret_share * li) rij)

/-- C8 (amended).  For every helper share `x_j`, recovery index `r`, helper
index set `S` and stored threshold (the length of the random list `rij`), the
retained piece plus all pieces generated for peer exchange sum exactly to
`λ_{r,j} * x_j`, where `λ` is the coefficient computed by
`map_share_to_new_params_for_x` — over evaluation points `(k + 1) as u32`,
which wrap modulo `2^32` and so differ from the exact Lagrange coefficient
for indices at or beyond `2^32 - 1`. -/
theorem C8_helper_shares_sum_to_lagrange_multiple {K : Type} [Field K]
    [DecidableEq K] (recovery_index party_index threshold : Nat)
    (all_parties : List Nat) (x_j : K) (rij : List K) (li : K)
    (hlen : rij.length = threshold)
    (hli : map_share_to_new_params_for_x recovery_index party_index
      all_parties = some li) :
    ∃ parts, create_secret_sharing_of_lost_share recovery_index party_index
        all_parties x_j rij = some parts ∧
      parts.retained + parts.for_peer_exchange.sum = x_j * li ∧
      parts.for_peer_exchange = rij := by
  refine ⟨create_linear_shares_of_scalar (x_j * li) rij, ?_, ?_, rfl⟩
  · unfold create_secret_sharing_of_lost_share
    rw [hli]
  · show x_j * li - rij.sum + rij.sum = x_j * li
    exact sub_add_cancel (x_j * li) rij.sum

/-- Witness for C8: over `ℚ`, a helper at index 1 recovering index 3 for the
party set `S = [1, 2, 4]` with share `x_j = 5` and random pieces `[2, 3, 4]`
(threshold 3): the Lagrange coefficient is `-(1/3)` and the pieces sum to
`5 * -(1/3)`. -/
theorem C8_helper_shares_sum_to_lagrange_multiple_witness :
    map_share_to_new_params_for_x 3 1 [1, 2, 4] = some (-(1/3) : ℚ) ∧
    ∃ parts, create_secret_sharing_of_lost_share 3 1 [1, 2, 4] (5 : ℚ)
        [2, 3, 4] = some parts ∧
      parts.retained + parts.for_peer_exchange.sum = (5 : ℚ) * -(1/3) ∧
      parts.for_peer_exchange = [2, 3, 4] := by
  have hli : map_share_to_new_params_for_x 3 1 [1, 2, 4] = some (-(1/3) : ℚ) := by
    norm_num [map_share_to_new_params_for_x]
  exact ⟨hli, C8_helper_shares_sum_to_lagrange_multiple 3 1 3 [1, 2, 4] 5
    [2, 3, 4] (-(1/3)) rfl hli⟩

/-- The Lagrange coefficient at `x = x_index` for party `index` over the
index set `s` as the specification words it: the same product formula as
`map_share_to_new_params_for_x` but over the exact evaluation points
`k + 1`, without the source's `(k + 1) as u32` wrap.  Kept separate so the
code's coefficient can be compared against it. -/
def lagrange_coefficient_spec {K : Type} [Field K] [DecidableEq K]
    (x_index index : Nat) (s : List Nat) : Option K :=
  let point : Nat → K := fun k => ((k + 1 : Nat) : K)
  let x := point x_index
  let xi := point index
  let num := s.foldl (fun acc si => if si ≠ index then acc * (point si - x) else acc) 1
  let denum := s.foldl (fun acc si => if si ≠ index then acc * (point si - xi) else acc) 1
  if denum = 0 then none else some (num * denum⁻¹)

/-- C8 counterexample.  Over `ℚ`, a helper at party index `2^32 - 1`
recovering index `1` for the index set `[0]`: the code's evaluation point for
the helper is `(2^32 - 1 + 1) as u32 = 0`, so its pieces sum to `-1 * x_j`,
while the exact Lagrange coefficient `λ_{1, 2^32-1}` is `1 / (2^32 - 1)`;
with `x_j = 1` the pieces do not sum to `λ_{r,j} * x_j`. -/
theorem C8_counterexample_point_wraparound :
    ∃ (parts : LinearShareParts ℚ) (li : ℚ),
      create_secret_sharing_of_lost_share 1 4294967295 [0] (1 : ℚ) [0] =
        some parts ∧
      lagrange_coefficient_spec 1 4294967295 [0] = some li ∧
      parts.retained + parts.for_peer_exchange.sum ≠ li * 1 := by
  refine ⟨⟨-1, [0]⟩, ((4294967295 : ℚ))⁻¹, ?_, ?_, ?_⟩
  · have hli : map_share_to_new_params_for_x 1 4294967295 [0] =
        some (-1 : ℚ) := by
      norm_num [map_share_to_new_params_for_x]
    unfold create_secret_sharing_of_lost_share
    rw [hli]
    unfold create_linear_shares_of_scalar
    norm_num
  · norm_num [lagrange_coefficient_spec]
  · norm_num

/-! ### Eject engine (`eject.rs`)

Curve scalars form fields `K1` (Secp256k1) and `K2` (Ed25519).  The
serialisation of the reconstructed scalar (`serde_json::to_string`) is
abstracted: the reconstructed scalar itself is returned, tagged by curve in
a sum type. -/

/-- `THRESHOLD` from `eject.rs`: at least 3 shares are needed. -/
def THRESHOLD : Nat := 3

/-- The `i`-th Lagrange basis coefficient at zero, as computed by `curv`'s
`VerifiableSS::lagrange_interpolation_at_zero` (external library):
`∏_{j ≠ i} x_j / ∏_{j ≠ i} (x_j - x_i)` over the first `n` points; `none`
models the panic of the `invert().unwrap()` on a zero denominator. -/
def lag_coef {K : Type} [Field K] [DecidableEq K] (points : List K)
    (n i : Nat) : Option K :=
  let xi := points.getD i 0
  let num := (List.range n).foldl
    (fun acc j => if i ≠ j then acc * points.getD j 0 else acc) 1
  let denum := (List.range n).foldl
    (fun acc j => if i ≠ j then acc * (points.getD j 0 - xi) else acc) 1
  if denum = 0 then none else some (num * denum⁻¹)

/-- `VerifiableSS::lagrange_interpolation_at_zero` from `curv` (external
library): `Σ_i scalars[i] * lag_coef_i`; `none` models the panic on a zero
denominator. -/
def lagrange_interpolation_at_zero {K : Type} [Field K] [DecidableEq K]
    (points scalars : List K) : Option K :=
  (List.range scalars.length).foldl
    (fun acc i =>
      match acc, lag_coef points scalars.length i with
      | some x, some c => some (x + scalars.getD i 0 * c)
      | _, _ => none)
    (some 0)

/-- `reconstruct_key` from `eject.rs` lines 187-200: `Ok none` when the share
and index counts differ or fewer than `THRESHOLD` shares are given (Rust's
`None`), otherwise the Lagrange interpolation at zero with the indices as
evaluation points — each index is cast `*i as u32` (line 195), so the
evaluation points are the indices reduced modulo `2^32`; `panic` when the
library interpolation panics. -/
def reconstruct_key {K : Type} [Field K] [DecidableEq K] (indices : List Nat)
    (shares : List K) : RunResult (Option K) :=
  if shares.length ≠ indices.length ∨ shares.length < THRESHOLD then .ok none
  else
    match lagrange_interpolation_at_zero
        (indices.map (fun i => ((i % 4294967296 : Nat) : K))) shares with
    | none => .panic
    | some v => .ok (some v)

/-- `EjectShareInfo` from `eject.rs`: a share scalar with its evaluation
index, tagged by curve. -/
inductive EjectShareInfo (K1 K2 : Type) where
  | secp256k1 (scalar : K1) (index : Nat)
  | ed25519 (scalar : K2) (index : Nat)
  deriving DecidableEq

/-- Whether an eject share is a Secp256k1 share. -/
def EjectShareInfo.isSecp256k1 {K1 K2 : Type} : EjectShareInfo K1 K2 → Bool
  | .secp256k1 _ _ => true
  | .ed25519 _ _ => false

/-- The `indices` vector accumulated by
`reconstruct_key_from_collected_eject_info`: one index per share, both curve
kinds mixed in order. -/
def eject_indices {K1 K2 : Type} (infos : List (EjectShareInfo K1 K2)) :
    List Nat :=
  infos.map (fun x => match x with
    | .secp256k1 _ i => i
    | .ed25519 _ i => i)

/-- The `secp_scalars` vector accumulated by
`reconstruct_key_from_collected_eject_info`. -/
def eject_secp_scalars {K1 K2 : Type} (infos : List (EjectShareInfo K1 K2)) :
    List K1 :=
  infos.filterMap (fun x => match x with
    | .secp256k1 s _ => some s
    | .ed25519 _ _ => none)

/-- The `ed25519_scalars` vector accumulated by
`reconstruct_key_from_collected_eject_info`. -/
def eject_ed25519_scalars {K1 K2 : Type} (infos : List (EjectShareInfo K1 K2)) :
    List K2 :=
  infos.filterMap (fun x => match x with
    | .secp256k1 _ _ => none
    | .ed25519 s _ => some s)

/-- `reconstruct_key_from_collected_eject_info` from `eject.rs` lines
133-166: fail for fewer than `THRESHOLD` collected shares, otherwise split by
curve, try the Secp256k1 reconstruction then the Ed25519 one against the
shared index vector. -/
def reconstruct_key_from_collected_eject_info {K1 K2 : Type} [Field K1]
    [DecidableEq K1] [Field K2] [DecidableEq K2]
    (eject_infos : List (EjectShareInfo K1 K2)) : RunResult (K1 ⊕ K2) :=
  if eject_infos.length < THRESHOLD then
    .err "Not enough keyshares found to reconstruct private key"
  else
    match reconstruct_key (eject_indices eject_infos)
        (eject_secp_scalars eject_infos) with
    | .panic => .panic
    | .err m => .err m
    | .ok (some k) => .ok (Sum.inl k)
    | .ok none =>
      match reconstruct_key (eject_indices eject_infos)
          (eject_ed25519_scalars eject_infos) with
      | .panic => .panic
      | .err m => .err m
      | .ok (some k) => .ok (Sum.inr k)
      | .ok none =>
        .err "Not enough keyshares of same key type found to reconstruct private key (this shouldn\x27t happen!)"

lemma foldl_if_mul_ne_zero {K : Type} [Field K] (i : Nat) (g : Nat → K) :
    ∀ (l : List Nat) (acc : K), acc ≠ 0 → (∀ j ∈ l, j ≠ i → g j ≠ 0) →
    l.foldl (fun acc j => if i ≠ j then acc * g j else acc) acc ≠ 0 := by
  intro l
  induction l with
  | nil =>
    intro acc ha _
    simpa using ha
  | cons a t ih =>
    intro acc ha hg
    simp only [List.foldl_cons]
    by_cases hia : i ≠ a
    · rw [if_pos hia]
      refine ih _ (mul_ne_zero ha (hg a (by simp) (fun h => hia h.symm))) ?_
      intro j hj hji
      exact hg j (by simp [hj]) hji
    · rw [if_neg hia]
      refine ih _ ha ?_
      intro j hj hji
      exact hg j (by simp [hj]) hji

lemma lag_coef_isSome {K : Type} [Field K] [DecidableEq K] {points : List K}
    {n i : Nat} (hn : points.length = n) (hi : i < n)
    (hnodup : points.Nodup) : ∃ c, lag_coef points n i = some c := by
  unfold lag_coef
  simp only []
  rw [if_neg]
  · exact ⟨_, rfl⟩
  · apply foldl_if_mul_ne_zero i (fun j => points.getD j 0 - points.getD i 0)
      (List.range n) 1 one_ne_zero
    intro j hj hji
    have hjn : j < points.length := by
      rw [hn]
      exact List.mem_range.mp hj
    have hin : i < points.length := by
      rw [hn]
      exact hi
    rw [List.getD_eq_getElem points 0 hjn, List.getD_eq_getElem points 0 hin]
    intro hsub
    have heq := sub_eq_zero.mp hsub
    exact hji (List.Nodup.getElem_inj_iff hnodup |>.mp heq)

lemma lagrange_fold_isSome {K : Type} [Field K] [DecidableEq K]
    (points scalars : List K) (l : List Nat)
    (hl : ∀ i ∈ l, ∃ c, lag_coef points scalars.length i = some c) :
    ∀ a : K, ∃ v, l.foldl
      (fun acc i =>
        match acc, lag_coef points scalars.length i with
        | some x, some c => some (x + scalars.getD i 0 * c)
        | _, _ => none) (some a) = some v := by
  induction l with
  | nil =>
    intro a
    exact ⟨a, rfl⟩
  | cons j t ih =>
    intro a
    obtain ⟨c, hc⟩ := hl j (by simp)
    simp only [List.foldl_cons, hc]
    exact ih (fun i hi => hl i (by simp [hi])) _

lemma lagrange_interpolation_at_zero_isSome {K : Type} [Field K]
    [DecidableEq K] {points scalars : List K}
    (hlen : points.length = scalars.length) (hnodup : points.Nodup) :
    ∃ v, lagrange_interpolation_at_zero points scalars = some v := by
  unfold lagrange_interpolation_at_zero
  apply lagrange_fold_isSome
  intro i hi
  exact lag_coef_isSome hlen (List.mem_range.mp hi) hnodup

lemma eject_secp_scalars_all_secp {K1 K2 : Type}
    {infos : List (EjectShareInfo K1 K2)}
    (h : ∀ x ∈ infos, x.isSecp256k1 = true) :
    (eject_secp_scalars infos).length = infos.length := by
  induction infos with
  | nil => rfl
  | cons a t ih =>
    cases a with
    | secp256k1 s i =>
      unfold eject_secp_scalars
      simp only [List.filterMap_cons]
      unfold eject_secp_scalars at ih
      simp only [List.length_cons]
      rw [ih (fun x hx => h x (List.mem_cons_of_mem _ hx))]
    | ed25519 s i =>
      have hmem := h (EjectShareInfo.ed25519 s i) (List.mem_cons_self _ _)
      exact absurd hmem (by simp [EjectShareInfo.isSecp256k1])

lemma eject_secp_scalars_all_ed {K1 K2 : Type}
    {infos : List (EjectShareInfo K1 K2)}
    (h : ∀ x ∈ infos, x.isSecp256k1 = false) :
    eject_secp_scalars infos = [] := by
  induction infos with
  | nil => rfl
  | cons a t ih =>
    cases a with
    | secp256k1 s i =>
      have hmem := h (EjectShareInfo.secp256k1 s i) (List.mem_cons_self _ _)
      exact absurd hmem (by simp [EjectShareInfo.isSecp256k1])
    | ed25519 s i =>
      unfold eject_secp_scalars
      simp only [List.filterMap_cons]
      unfold eject_secp_scalars at ih
      exact ih (fun x hx => h x (List.mem_cons_of_mem _ hx))

lemma eject_ed25519_scalars_all_ed {K1 K2 : Type}
    {infos : List (EjectShareInfo K1 K2)}
    (h : ∀ x ∈ infos, x.isSecp256k1 = false) :
    (eject_ed25519_scalars infos).length = infos.length := by
  induction infos with
  | nil => rfl
  | cons a t ih =>
    cases a with
    | secp256k1 s i =>
      have hmem := h (EjectShareInfo.secp256k1 s i) (List.mem_cons_self _ _)
      exact absurd hmem (by simp [EjectShareInfo.isSecp256k1])
    | ed25519 s i =>
      unfold eject_ed25519_scalars
      simp only [List.filterMap_cons]
      unfold eject_ed25519_scalars at ih
      simp only [List.length_cons]
      rw [ih (fun x hx => h x (List.mem_cons_of_mem _ hx))]

lemma eject_indices_length {K1 K2 : Type} (infos : List (EjectShareInfo K1 K2)) :
    (eject_indices infos).length = infos.length :=
  List.length_map _ _

/-- C7 (amended).  Fewer than `THRESHOLD = 3` collected shares make the eject
engine return the "Not enough keyshares" error and no key; at least three
shares of a single curve type whose evaluation indices are distinct modulo
`2^32` (the `*i as u32` cast of `reconstruct_key`) are reconstructed into the
Lagrange interpolation at zero of the shares at the truncated evaluation
points (returned for the caller, serialisation abstracted). -/
theorem C7_eject_lagrange_reconstruction {K1 K2 : Type} [Field K1]
    [DecidableEq K1] [Field K2] [DecidableEq K2]
    (infos : List (EjectShareInfo K1 K2)) :
    (infos.length < 3 →
      reconstruct_key_from_collected_eject_info infos =
        .err "Not enough keyshares found to reconstruct private key") ∧
    (3 ≤ infos.length → (∀ x ∈ infos, x.isSecp256k1 = true) →
      ((eject_indices infos).map (fun i => ((i % 4294967296 : Nat) : K1))).Nodup →
      ∃ v, lagrange_interpolation_at_zero
          ((eject_indices infos).map (fun i => ((i % 4294967296 : Nat) : K1)))
          (eject_secp_scalars infos) = some v ∧
        reconstruct_key_from_collected_eject_info infos = .ok (Sum.inl v)) ∧
    (3 ≤ infos.length → (∀ x ∈ infos, x.isSecp256k1 = false) →
      ((eject_indices infos).map (fun i => ((i % 4294967296 : Nat) : K2))).Nodup →
      ∃ v, lagrange_interpolation_at_zero
          ((eject_indices infos).map (fun i => ((i % 4294967296 : Nat) : K2)))
          (eject_ed25519_scalars infos) = some v ∧
        reconstruct_key_from_collected_eject_info infos = .ok (Sum.inr v)) := by
  have hlenidx := eject_indices_length infos
  refine ⟨?_, ?_, ?_⟩
  · intro hlt
    have hlt' : infos.length < THRESHOLD := hlt
    unfold reconstruct_key_from_collected_eject_info
    rw [if_pos hlt']
  · intro h3 hall hnodup
    have h3' : ¬ infos.length < THRESHOLD := not_lt.mpr h3
    have hlensecp := eject_secp_scalars_all_secp hall
    obtain ⟨v, hv⟩ := @lagrange_interpolation_at_zero_isSome K1 _ _
      ((eject_indices infos).map (fun i => ((i % 4294967296 : Nat) : K1)))
      (eject_secp_scalars infos)
      (by rw [List.length_map, hlenidx, hlensecp]) hnodup
    refine ⟨v, hv, ?_⟩
    have hrk : reconstruct_key (eject_indices infos) (eject_secp_scalars infos) =
        .ok (some v) := by
      unfold reconstruct_key
      rw [if_neg, hv]
      intro hor
      rcases hor with hne | hlt
      · exact hne (by rw [hlensecp, hlenidx])
      · rw [hlensecp] at hlt
        exact absurd h3 (not_le.mpr hlt)
    unfold reconstruct_key_from_collected_eject_info
    rw [if_neg h3', hrk]
  · intro h3 hall hnodup
    have h3' : ¬ infos.length < THRESHOLD := not_lt.mpr h3
    have hlened := eject_ed25519_scalars_all_ed hall
    have hsecpnil := eject_secp_scalars_all_ed hall
    obtain ⟨v, hv⟩ := @lagrange_interpolation_at_zero_isSome K2 _ _
      ((eject_indices infos).map (fun i => ((i % 4294967296 : Nat) : K2)))
      (eject_ed25519_scalars infos)
      (by rw [List.length_map, hlenidx, hlened]) hnodup
    refine ⟨v, hv, ?_⟩
    have hrks : reconstruct_key (eject_indices infos) (eject_secp_scalars infos) =
        .ok none := by
      unfold reconstruct_key
      rw [if_pos]
      left
      rw [hsecpnil, hlenidx]
      simp only [List.length_nil]
      omega
    have hrke : reconstruct_key (eject_indices infos)
        (eject_ed25519_scalars infos) = .ok (some v) := by
      unfold reconstruct_key
      rw [if_neg, hv]
      intro hor
      rcases hor with hne | hlt
      · exact hne (by rw [hlened, hlenidx])
      · rw [hlened] at hlt
        exact absurd h3 (not_le.mpr hlt)
    unfold reconstruct_key_from_collected_eject_info
    rw [if_neg h3', hrks, hrke]

/-- Witness for C7: two shares are rejected as "Not enough keyshares"; three
Ed25519 shares at the distinct indices 1, 2, 3 over `ℚ` are interpolated. -/
theorem C7_eject_lagrange_reconstruction_witness :
    (reconstruct_key_from_collected_eject_info
      ([EjectShareInfo.ed25519 (4 : ℚ) 1, EjectShareInfo.ed25519 (7 : ℚ) 2] :
        List (EjectShareInfo ℚ ℚ)) =
      .err "Not enough keyshares found to reconstruct private key") ∧
    (∃ v, lagrange_interpolation_at_zero
        ((eject_indices ([EjectShareInfo.ed25519 (4 : ℚ) 1,
          EjectShareInfo.ed25519 (7 : ℚ) 2, EjectShareInfo.ed25519 (9 : ℚ) 3] :
            List (EjectShareInfo ℚ ℚ))).map (fun i => ((i % 4294967296 : Nat) : ℚ)))
        (eject_ed25519_scalars ([EjectShareInfo.ed25519 (4 : ℚ) 1,
          EjectShareInfo.ed25519 (7 : ℚ) 2, EjectShareInfo.ed25519 (9 : ℚ) 3] :
            List (EjectShareInfo ℚ ℚ))) = some v ∧
      reconstruct_key_from_collected_eject_info
        ([EjectShareInfo.ed25519 (4 : ℚ) 1, EjectShareInfo.ed25519 (7 : ℚ) 2,
          EjectShareInfo.ed25519 (9 : ℚ) 3] : List (EjectShareInfo ℚ ℚ)) =
        .ok (Sum.inr v)) := by
  constructor
  · exact (C7_eject_lagrange_reconstruction _).1 (by norm_num)
  · refine (C7_eject_lagrange_reconstruction _).2.2 (by norm_num) ?_ ?_
    · intro x hx
      fin_cases hx <;> rfl
    · simp only [eject_indices, List.map_cons, List.map_nil]
      norm_num

/-- C7 counterexample.  Three Secp256k1 shares `1, 2, 3` at the evaluation
indices `1, 2, 2^32 + 3`: the `*i as u32` cast in `reconstruct_key`
(`eject.rs` line 195) wraps the third index to `3`, so the engine returns the
interpolation at the points `1, 2, 3` — the value `0` — while the Lagrange
interpolation at zero of the shares at the supplied indices themselves is
`-2^33 / (4294967298 * 4294967297) ≠ 0`, refuting the claim that the engine
returns the interpolation at the given evaluation indices. -/
theorem C7_counterexample_index_truncation :
    (reconstruct_key_from_collected_eject_info
      ([EjectShareInfo.secp256k1 (1 : ℚ) 1, EjectShareInfo.secp256k1 (2 : ℚ) 2,
        EjectShareInfo.secp256k1 (3 : ℚ) 4294967299] :
          List (EjectShareInfo ℚ ℚ)) = .ok (Sum.inl 0)) ∧
    lagrange_interpolation_at_zero ([1, 2, 4294967299] : List ℚ)
      ([1, 2, 3] : List ℚ) =
      some (-8589934592 / (4294967298 * 4294967297)) ∧
    ((-8589934592 / (4294967298 * 4294967297) : ℚ) ≠ 0) := by
  refine ⟨?_, ?_, by norm_num⟩
  · have hlag : lagrange_interpolation_at_zero ([1, 2, 3] : List ℚ)
        ([1, 2, 3] : List ℚ) = some 0 := by
      norm_num [lagrange_interpolation_at_zero, lag_coef, List.range_succ]
    have hmap : ([1, 2, 4294967299] : List Nat).map
        (fun i => ((i % 4294967296 : Nat) : ℚ)) = [1, 2, 3] := by
      norm_num
    have hrk : reconstruct_key ([1, 2, 4294967299] : List Nat)
        ([1, 2, 3] : List ℚ) = .ok (some (0 : ℚ)) := by
      unfold reconstruct_key
      rw [if_neg (by decide), hmap, hlag]
    have hidx : eject_indices ([EjectShareInfo.secp256k1 (1 : ℚ) 1,
        EjectShareInfo.secp256k1 (2 : ℚ) 2,
        EjectShareInfo.secp256k1 (3 : ℚ) 4294967299] :
          List (EjectShareInfo ℚ ℚ)) = [1, 2, 4294967299] := rfl
    have hsecp : eject_secp_scalars ([EjectShareInfo.secp256k1 (1 : ℚ) 1,
        EjectShareInfo.secp256k1 (2 : ℚ) 2,
        EjectShareInfo.secp256k1 (3 : ℚ) 4294967299] :
          List (EjectShareInfo ℚ ℚ)) = [1, 2, 3] := rfl
    unfold reconstruct_key_from_collected_eject_info
    rw [if_neg (by decide), hidx, hsecp, hrk]
  · norm_num [lagrange_interpolation_at_zero, lag_coef, List.range_succ]

/-! ### Round message collector (`communication/ecdsa.rs`)

The NATS subscription is modelled as a list of interaction events consumed in
order: `msg sender payload` for a message that arrives within the per-message
30-second window, `timeout` for a wait that exceeds it.  Real time does not
appear; the timeout is an event.  A payload that fails to deserialise aborts
the collection with an error exactly like a timeout, so it is folded into
`timeout` here.  The source's error strings (which interpolate type names and
subscription debug output) are abstracted into `CollectError`. -/

/-- One interaction with the subscription. -/
inductive WireEvent (T : Type) where
  | msg (sender : Nat) (payload : T)
  | timeout
  deriving DecidableEq

/-- The collector's error cases: `get_next_item` timeout (or deserialisation
failure), a self-addressed message in a P2P round, a second message from an
already-seen sender. -/
inductive CollectError where
  | timeout
  | selfMessage
  | duplicate (sender : Nat)
  deriving DecidableEq

/-- The keys of an association list. -/
def assoc_keys {T : Type} (m : List (Nat × T)) : List Nat := m.map Prod.fst

/-- `BTreeMap::insert`, on an association list sorted by key. -/
def btreeInsert {T : Type} (k : Nat) (v : T) : List (Nat × T) → List (Nat × T)
  | [] => [(k, v)]
  | (k', v') :: rest =>
    if k < k' then (k, v) :: (k', v') :: rest
    else if k = k' then (k, v) :: rest
    else (k', v') :: btreeInsert k v rest

/-- `BTreeMap::contains_key`. -/
def btreeContains {T : Type} (k : Nat) (m : List (Nat × T)) : Bool :=
  m.any (fun kv => kv.1 == k)

/-- `BTreeMap::remove` (only the key set matters here). -/
def btreeRemove {T : Type} (k : Nat) (m : List (Nat × T)) : List (Nat × T) :=
  m.filter (fun kv => kv.1 != k)

/-- The `while map.len() < message_count` loop of `collect_messages`
(`communication/ecdsa.rs` lines 59-84): read the next item (timeout is
fatal), reject a self-addressed message when a `receiver_id` is given, reject
a duplicate sender, insert, repeat. -/
def collect_loop {T : Type} (receiver_id : Option Nat) (message_count : Nat) :
    List (WireEvent T) → List (Nat × T) →
    Except CollectError (List (Nat × T))
  | events, map =>
    if map.length < message_count then
      match events with
      | [] => .error .timeout
      | .timeout :: _ => .error .timeout
      | .msg sender payload :: rest =>
        if receiver_id = some sender then .error .selfMessage
        else if btreeContains sender map then .error (.duplicate sender)
        else collect_loop receiver_id message_count rest (btreeInsert sender payload map)
    else .ok map

/-- `collect_messages` from `communication/ecdsa.rs` lines 50-96:
`message_count` is `party_count` minus one in a P2P round; after the loop the
receiver's own id is removed from the map (a no-op, since self messages are
fatal) and the values are returned in sender-id order. -/
def collect_messages {T : Type} (events : List (WireEvent T))
    (party_count : Nat) (receiver_id : Option Nat) :
    Except CollectError (List T) :=
  let message_count := party_count - (if receiver_id.isSome then 1 else 0)
  match collect_loop receiver_id message_count events [] with
  | .error e => .error e
  | .ok map =>
    let final := match receiver_id with
      | some id => if id < party_count then btreeRemove id map else map
      | none => map
    .ok (final.map (fun kv => kv.2))

/-- `collect_messages_ordered` (broadcast round). -/
def collect_messages_ordered {T : Type} (events : List (WireEvent T))
    (expected_count : Nat) : Except CollectError (List T) :=
  collect_messages events expected_count none

/-- `collect_messages_p2p` (P2P round). -/
def collect_messages_p2p {T : Type} (events : List (WireEvent T))
    (party_count : Nat) (receiver_id : Nat) : Except CollectError (List T) :=
  collect_messages events party_count (some receiver_id)

lemma btreeContains_iff {T : Type} {k : Nat} {m : List (Nat × T)} :
    btreeContains k m = true ↔ k ∈ assoc_keys m := by
  unfold btreeContains assoc_keys
  rw [List.any_eq_true]
  constructor
  · intro ⟨kv, hkv, hbeq⟩
    rw [beq_iff_eq] at hbeq
    subst hbeq
    exact List.mem_map_of_mem _ hkv
  · intro hk
    rcases List.mem_map.mp hk with ⟨kv, hkv, hfst⟩
    exact ⟨kv, hkv, beq_iff_eq.mpr hfst⟩

lemma mem_assoc_keys_btreeInsert {T : Type} {x k : Nat} {v : T}
    {m : List (Nat × T)} :
    x ∈ assoc_keys (btreeInsert k v m) ↔ x = k ∨ x ∈ assoc_keys m := by
  induction m with
  | nil => simp [btreeInsert, assoc_keys]
  | cons kv rest ih =>
    obtain ⟨k', v'⟩ := kv
    unfold btreeInsert
    by_cases h1 : k < k'
    · rw [if_pos h1]
      simp [assoc_keys]
    · rw [if_neg h1]
      by_cases h2 : k = k'
      · rw [if_pos h2]
        subst h2
        simp only [assoc_keys, List.map_cons, List.mem_cons]
        tauto
      · rw [if_neg h2]
        simp only [assoc_keys, List.map_cons, List.mem_cons] at ih ⊢
        rw [ih]
        tauto

lemma length_btreeInsert {T : Type} {k : Nat} {v : T} {m : List (Nat × T)}
    (h : k ∉ assoc_keys m) :
    (btreeInsert k v m).length = m.length + 1 := by
  induction m with
  | nil => rfl
  | cons kv rest ih =>
    obtain ⟨k', v'⟩ := kv
    unfold btreeInsert
    simp only [assoc_keys, List.map_cons, List.mem_cons] at h
    push_neg at h
    by_cases h1 : k < k'
    · rw [if_pos h1]
      rfl
    · rw [if_neg h1, if_neg h.1]
      simp only [List.length_cons]
      rw [ih (by
        intro hm
        exact h.2 hm)]

lemma nodup_assoc_keys_btreeInsert {T : Type} {k : Nat} {v : T}
    {m : List (Nat × T)} (hk : k ∉ assoc_keys m)
    (hm : (assoc_keys m).Nodup) :
    (assoc_keys (btreeInsert k v m)).Nodup := by
  induction m with
  | nil => simp [btreeInsert, assoc_keys]
  | cons kv rest ih =>
    obtain ⟨k', v'⟩ := kv
    simp only [assoc_keys, List.map_cons, List.mem_cons] at hk hm
    push_neg at hk
    rw [List.nodup_cons] at hm
    unfold btreeInsert
    by_cases h1 : k < k'
    · rw [if_pos h1]
      simp only [assoc_keys, List.map_cons, List.nodup_cons, List.mem_cons]
      push_neg
      exact ⟨⟨hk.1, hk.2⟩, hm.1, hm.2⟩
    · rw [if_neg h1, if_neg hk.1]
      simp only [assoc_keys, List.map_cons, List.nodup_cons]
      constructor
      · intro hmem
        rcases mem_assoc_keys_btreeInsert.mp hmem with heq | hmem'
        · exact hk.1 heq.symm
        · exact hm.1 hmem'
      · exact ih hk.2 hm.2

lemma btreeRemove_eq_self {T : Type} {id : Nat} {m : List (Nat × T)}
    (h : id ∉ assoc_keys m) : btreeRemove id m = m := by
  unfold btreeRemove
  apply List.filter_eq_self.mpr
  intro kv hkv
  rw [bne_iff_ne]
  intro heq
  exact h (heq ▸ List.mem_map_of_mem _ hkv)

lemma collect_loop_eq {T : Type} (r : Option Nat) (c : Nat)
    (events : List (WireEvent T)) (map : List (Nat × T)) :
    collect_loop r c events map =
      if map.length < c then
        match events with
        | [] => .error .timeout
        | .timeout :: _ => .error .timeout
        | .msg sender payload :: rest =>
          if r = some sender then .error .selfMessage
          else if btreeContains sender map then .error (.duplicate sender)
          else collect_loop r c rest (btreeInsert sender payload map)
      else .ok map := by
  rw [collect_loop.eq_def]

lemma collect_loop_nil {T : Type} {r : Option Nat} {c : Nat}
    {map : List (Nat × T)} (h : map.length < c) :
    collect_loop r c [] map = .error .timeout := by
  rw [collect_loop_eq, if_pos h]

lemma collect_loop_timeout {T : Type} {r : Option Nat} {c : Nat}
    {rest : List (WireEvent T)} {map : List (Nat × T)} (h : map.length < c) :
    collect_loop r c (.timeout :: rest) map = .error .timeout := by
  rw [collect_loop_eq, if_pos h]

lemma collect_loop_msg {T : Type} {r : Option Nat} {c : Nat} {s : Nat} {p : T}
    {rest : List (WireEvent T)} {map : List (Nat × T)} (h : map.length < c) :
    collect_loop r c (.msg s p :: rest) map =
      (if r = some s then .error .selfMessage
       else if btreeContains s map then .error (.duplicate s)
       else collect_loop r c rest (btreeInsert s p map)) := by
  rw [collect_loop_eq, if_pos h]

lemma collect_loop_full {T : Type} {r : Option Nat} {c : Nat}
    {events : List (WireEvent T)} {map : List (Nat × T)}
    (h : ¬ map.length < c) :
    collect_loop r c events map = .ok map := by
  rw [collect_loop_eq, if_neg h]

lemma collect_loop_ok_inv {T : Type} {receiver : Option Nat} {count : Nat} :
    ∀ (events : List (WireEvent T)) (map result : List (Nat × T)),
    collect_loop receiver count events map = .ok result →
    (assoc_keys map).Nodup →
    (∀ id, receiver = some id → id ∉ assoc_keys map) →
    map.length ≤ count →
    result.length = count ∧ (assoc_keys result).Nodup ∧
      ∀ id, receiver = some id → id ∉ assoc_keys result := by
  intro events
  induction events with
  | nil =>
    intro map result h hnd hns hle
    by_cases hlt : map.length < count
    · rw [collect_loop_nil hlt] at h
      cases h
    · rw [collect_loop_full hlt] at h
      cases h
      exact ⟨le_antisymm hle (not_lt.mp hlt), hnd, hns⟩
  | cons e rest ih =>
    intro map result h hnd hns hle
    by_cases hlt : map.length < count
    · cases e with
      | timeout =>
        rw [collect_loop_timeout hlt] at h
        cases h
      | msg sender payload =>
        rw [collect_loop_msg hlt] at h
        split at h
        · cases h
        · split at h
          · cases h
          · rename_i hself hcont
            have hsmem : sender ∉ assoc_keys map := fun hm =>
              hcont (btreeContains_iff.mpr hm)
            refine ih _ _ h (nodup_assoc_keys_btreeInsert hsmem hnd) ?_ ?_
            · intro id hid hmem
              rcases mem_assoc_keys_btreeInsert.mp hmem with heq | hmem'
              · subst heq
                exact hself hid
              · exact hns id hid hmem'
            · rw [length_btreeInsert hsmem]
              omega
    · rw [collect_loop_full hlt] at h
      cases h
      exact ⟨le_antisymm hle (not_lt.mp hlt), hnd, hns⟩

lemma collect_loop_clean_run {T : Type} {receiver : Option Nat} {count : Nat} :
    ∀ (pre : List (Nat × T)) (map : List (Nat × T)) (events' : List (WireEvent T)),
    (assoc_keys pre).Nodup →
    (∀ x ∈ assoc_keys pre, receiver ≠ some x) →
    (∀ x ∈ assoc_keys pre, x ∉ assoc_keys map) →
    map.length + pre.length ≤ count →
    ∃ map', collect_loop receiver count
        (pre.map (fun kv => WireEvent.msg kv.1 kv.2) ++ events') map =
      collect_loop receiver count events' map' ∧
      map'.length = map.length + pre.length ∧
      (∀ x, x ∈ assoc_keys map' ↔ x ∈ assoc_keys map ∨ x ∈ assoc_keys pre) ∧
      ((assoc_keys map).Nodup → (assoc_keys map').Nodup) := by
  intro pre
  induction pre with
  | nil =>
    intro map events' hnd hns hdis hle
    refine ⟨map, by simp, by simp, ?_, fun h => h⟩
    intro x
    simp [assoc_keys]
  | cons kv t ih =>
    intro map events' hnd hns hdis hle
    obtain ⟨s, p⟩ := kv
    simp only [assoc_keys, List.map_cons, List.nodup_cons, List.mem_cons] at hnd hns hdis
    simp only [List.map_cons, List.cons_append]
    rw [collect_loop_msg (by
      simp only [List.length_cons] at hle
      omega)]
    rw [if_neg (fun hr => hns s (Or.inl rfl) hr)]
    rw [if_neg (by
      intro hc
      exact hdis s (Or.inl rfl) (btreeContains_iff.mp hc))]
    have hsnotin : s ∉ assoc_keys map := hdis s (Or.inl rfl)
    obtain ⟨map', heq, hlen, hmem, hndimp⟩ := ih (btreeInsert s p map) events'
      hnd.2 (fun x hx => hns x (Or.inr hx))
      (by
        intro x hx hmem
        rcases mem_assoc_keys_btreeInsert.mp hmem with hxs | hxm
        · exact hnd.1 (hxs ▸ hx)
        · exact hdis x (Or.inr hx) hxm)
      (by
        rw [length_btreeInsert hsnotin]
        simp only [List.length_cons] at hle
        omega)
    refine ⟨map', heq, ?_, ?_, ?_⟩
    · rw [hlen, length_btreeInsert hsnotin]
      simp only [List.length_cons]
      omega
    · intro x
      rw [hmem x]
      rw [show (x ∈ assoc_keys (btreeInsert s p map)) ↔
        (x = s ∨ x ∈ assoc_keys map) from mem_assoc_keys_btreeInsert]
      unfold assoc_keys
      simp only [List.map_cons, List.mem_cons]
      tauto
    · intro hmnd
      exact hndimp (nodup_assoc_keys_btreeInsert hsnotin hmnd)

lemma collect_messages_ok_inv {T : Type} {events : List (WireEvent T)}
    {party_count : Nat} {receiver : Option Nat} {vals : List T}
    (h : collect_messages events party_count receiver = .ok vals) :
    ∃ m, collect_loop receiver (party_count - (if receiver.isSome then 1 else 0))
        events [] = .ok m ∧
      vals = m.map (fun kv => kv.2) ∧
      m.length = party_count - (if receiver.isSome then 1 else 0) ∧
      (assoc_keys m).Nodup ∧
      ∀ id, receiver = some id → id ∉ assoc_keys m := by
  unfold collect_messages at h
  simp only [] at h
  split at h
  · cases h
  · rename_i m hm
    obtain ⟨hlen, hnd, hns⟩ := collect_loop_ok_inv events [] m hm
      (by simp [assoc_keys]) (by simp [assoc_keys]) (by simp)
    cases h
    refine ⟨m, hm, ?_, hlen, hnd, hns⟩
    cases receiver with
    | none => rfl
    | some id =>
      have hid : id ∉ assoc_keys m := hns id rfl
      by_cases hlt : id < party_count
      · simp only [if_pos hlt, btreeRemove_eq_self hid]
      · simp only [if_neg hlt]

/-- C4.  The round collector returns an error — never a partial vector — when
a second message from an already-seen sender arrives before the required
count is reached, when a P2P-round message's sender equals the receiver's own
id, or when a per-message wait times out (or the stream ends) before the set
is complete; otherwise it returns exactly the required number of messages
(`party_count`, or `party_count - 1` for a P2P round), one per distinct
sender, with no self message among them. -/
theorem C4_collector_all_or_nothing {T : Type} (events : List (WireEvent T))
    (party_count : Nat) (receiver : Option Nat) (pre : List (Nat × T))
    (rest : List (WireEvent T)) (s r : Nat) (p : T) :
    (∀ vals, collect_messages events party_count receiver = .ok vals →
      ∃ m, vals = m.map (fun kv => kv.2) ∧
        m.length = party_count - (if receiver.isSome then 1 else 0) ∧
        (assoc_keys m).Nodup ∧
        ∀ id, receiver = some id → id ∉ assoc_keys m) ∧
    ((assoc_keys pre).Nodup → (∀ x ∈ assoc_keys pre, receiver ≠ some x) →
      pre.length < party_count - (if receiver.isSome then 1 else 0) →
      collect_messages (pre.map (fun kv => WireEvent.msg kv.1 kv.2) ++
        WireEvent.timeout :: rest) party_count receiver = .error .timeout) ∧
    ((assoc_keys pre).Nodup → (∀ x ∈ assoc_keys pre, receiver ≠ some x) →
      pre.length < party_count - (if receiver.isSome then 1 else 0) →
      s ∈ assoc_keys pre → receiver ≠ some s →
      collect_messages (pre.map (fun kv => WireEvent.msg kv.1 kv.2) ++
        WireEvent.msg s p :: rest) party_count receiver =
        .error (.duplicate s)) ∧
    ((assoc_keys pre).Nodup → (∀ x ∈ assoc_keys pre, receiver ≠ some x) →
      pre.length < party_count - (if receiver.isSome then 1 else 0) →
      receiver = some r →
      collect_messages (pre.map (fun kv => WireEvent.msg kv.1 kv.2) ++
        WireEvent.msg r p :: rest) party_count receiver =
        .error .selfMessage) ∧
    ((assoc_keys pre).Nodup → (∀ x ∈ assoc_keys pre, receiver ≠ some x) →
      pre.length = party_count - (if receiver.isSome then 1 else 0) →
      ∃ vals, collect_messages (pre.map (fun kv => WireEvent.msg kv.1 kv.2) ++
          rest) party_count receiver = .ok vals ∧
        vals.length = party_count - (if receiver.isSome then 1 else 0)) := by
  refine ⟨?_, ?_, ?_, ?_, ?_⟩
  · intro vals h
    obtain ⟨m, hm, hvals, hlen, hnd, hns⟩ := collect_messages_ok_inv h
    exact ⟨m, hvals, hlen, hnd, hns⟩
  · intro hnd hns hlt
    unfold collect_messages
    simp only []
    obtain ⟨map', heq, hlen, hmem, hndimp⟩ := @collect_loop_clean_run T
      receiver (party_count - (if receiver.isSome then 1 else 0)) pre []
      (WireEvent.timeout :: rest) hnd hns (by simp [assoc_keys])
      (by simp only [List.length_nil]; omega)
    simp only [List.length_nil] at hlen
    rw [heq, collect_loop_timeout (by omega)]
  · intro hnd hns hlt hmempre hnotself
    unfold collect_messages
    simp only []
    obtain ⟨map', heq, hlen, hmem, hndimp⟩ := @collect_loop_clean_run T
      receiver (party_count - (if receiver.isSome then 1 else 0)) pre []
      (WireEvent.msg s p :: rest) hnd hns (by simp [assoc_keys])
      (by simp only [List.length_nil]; omega)
    simp only [List.length_nil] at hlen
    rw [heq, collect_loop_msg (by omega), if_neg hnotself,
      if_pos (btreeContains_iff.mpr ((hmem s).mpr (Or.inr hmempre)))]
  · intro hnd hns hlt hrec
    unfold collect_messages
    simp only []
    obtain ⟨map', heq, hlen, hmem, hndimp⟩ := @collect_loop_clean_run T
      receiver (party_count - (if receiver.isSome then 1 else 0)) pre []
      (WireEvent.msg r p :: rest) hnd hns (by simp [assoc_keys])
      (by simp only [List.length_nil]; omega)
    simp only [List.length_nil] at hlen
    rw [heq, collect_loop_msg (by omega), if_pos hrec]
  · intro hnd hns hlenpre
    unfold collect_messages
    simp only []
    obtain ⟨map', heq, hlen, hmem, hndimp⟩ := @collect_loop_clean_run T
      receiver (party_count - (if receiver.isSome then 1 else 0)) pre []
      rest hnd hns (by simp [assoc_keys])
      (by simp only [List.length_nil]; omega)
    simp only [List.length_nil] at hlen
    rw [heq, collect_loop_full (by omega)]
    have hnotin : ∀ id, receiver = some id → id ∉ assoc_keys map' := by
      intro id hid hin
      rcases (hmem id).mp hin with hemp | hpre
      · simp [assoc_keys] at hemp
      · exact hns id hpre hid
    cases receiver with
    | none =>
      refine ⟨_, rfl, ?_⟩
      rw [List.length_map]
      show map'.length = party_count - (if (none : Option Nat).isSome then 1 else 0)
      omega
    | some id =>
      have hid := hnotin id rfl
      by_cases hltid : id < party_count
      · refine ⟨_, rfl, ?_⟩
        rw [List.length_map]
        show (if id < party_count then btreeRemove id map' else map').length =
          party_count - (if (some id).isSome then 1 else 0)
        rw [if_pos hltid, btreeRemove_eq_self hid]
        omega
      · refine ⟨_, rfl, ?_⟩
        rw [List.length_map]
        show (if id < party_count then btreeRemove id map' else map').length =
          party_count - (if (some id).isSome then 1 else 0)
        rw [if_neg hltid]
        omega

/-- Witness for C4: with three parties, a timeout after one message, a
duplicate sender, and a self-addressed P2P message are each fatal, while
three distinct-sender messages yield exactly three collected messages. -/
theorem C4_collector_all_or_nothing_witness :
    collect_messages ([WireEvent.msg 0 10, WireEvent.timeout] :
      List (WireEvent Nat)) 3 none = .error .timeout ∧
    collect_messages ([WireEvent.msg 0 10, WireEvent.msg 0 99] :
      List (WireEvent Nat)) 3 none = .error (.duplicate 0) ∧
    collect_messages ([WireEvent.msg 0 10, WireEvent.msg 1 5] :
      List (WireEvent Nat)) 3 (some 1) = .error .selfMessage ∧
    (∃ vals, collect_messages ([WireEvent.msg 0 10, WireEvent.msg 1 11,
        WireEvent.msg 2 12] : List (WireEvent Nat)) 3 none = .ok vals ∧
      vals.length = 3) := by
  refine ⟨?_, ?_, ?_, ?_⟩
  · exact (C4_collector_all_or_nothing ([] : List (WireEvent Nat)) 3 none
      [(0, 10)] [] 0 0 0).2.1 (by decide) (by decide) (by decide)
  · exact (C4_collector_all_or_nothing ([] : List (WireEvent Nat)) 3 none
      [(0, 10)] [] 0 0 99).2.2.1 (by decide) (by decide) (by decide)
      (by decide) (by decide)
  · exact (C4_collector_all_or_nothing ([] : List (WireEvent Nat)) 3 (some 1)
      [(0, 10)] [] 0 1 5).2.2.2.1 (by decide) (by decide) (by decide) rfl
  · exact (C4_collector_all_or_nothing ([] : List (WireEvent Nat)) 3 none
      [(0, 10), (1, 11), (2, 12)] [] 0 0 0).2.2.2.2 (by decide) (by decide)
      (by decide)
